import Mathlib

/-!
# The rope solver `b2Rope` (box2d/src/rope/b2_rope.cpp)

A shallow embedding of the rope solver and the properties established about it.

Numbers.  A C++ `float` is modelled by `Flt`: a finite value, carried as a rational number,
an infinity, or a NaN.  Every arithmetic operation rounds its exact result to single
precision (`Flt.round`: 24 significant binary digits, exponents from -126, ties to the even
significand), once per operation and in the order in which the C++ expression evaluates; a
result of magnitude `2 ^ 128` or more is an infinity, and the operations on infinities and
NaNs are those of IEEE 754.  A comparison with a NaN is false (and `!=` is true).  The two
zeros are not told apart: no comparison of the rope code sees the sign of a zero, and where
the code divides by a zero, the zero is a sum of products of non-negative values, a positive
zero.  Only `atan2` sees the sign of a zero argument; it is a parameter of the embedding,
and a function of the values.  The values that the caller
passes in (vertices, masses, gravity, anchor, time step, tuning) are rationals; they stand
for the floats passed.

The math header is not among the sources.  Its vector operations are modelled as the
arithmetic they name; its square root, `atan2`, `expf`, `Normalize` and `b2_pi` are
parameters of the embedding (`b2Math`), so that a property proved for every `b2Math` holds
for the functions of the header whatever they return.

Arrays.  A C++ array (a pointer and a count) is a function from indices to values; a write
is `Function.update`.  A counted `for` loop is `forLoop`.

`b2Assert` is fatal: a function whose assertion fails returns `none`.
-/

/-! ## Floats -/

/-- A float: a finite value, an infinity (`Flt.inf true` is the negative one) or a NaN. -/
inductive Flt where
  | fin : ℚ → Flt
  | inf : Bool → Flt
  | nan : Flt
deriving DecidableEq

/-- The integer part of the binary logarithm of `n`, by halving; `fuel` bounds the number of
halvings. -/
def Flt.ilog2 (fuel n : Nat) : Nat :=
  match fuel with
  | 0 => 0
  | f + 1 => if n < 2 then 0 else Flt.ilog2 f (n / 2) + 1

/-- The power `2 ^ k` of an integer exponent. -/
def Flt.pow2 (k : Int) : ℚ :=
  if 0 ≤ k then ((2 ^ k.toNat : Nat) : ℚ) else 1 / ((2 ^ (-k).toNat : Nat) : ℚ)

/-- The absolute value of a rational. -/
def Flt.absq (q : ℚ) : ℚ := if q < 0 then -q else q

/-- The binary exponent of a rational `q` that is not 0: the `e` with
`2 ^ e ≤ |q| < 2 ^ (e + 1)`. -/
def Flt.exponent (q : ℚ) : Int :=
  let e : Int := (Flt.ilog2 q.num.natAbs q.num.natAbs : Int) - (Flt.ilog2 q.den q.den : Int)
  if Flt.pow2 e ≤ Flt.absq q then e else e - 1

/-- The integer nearest to a rational, the even one of the two when it lies half way. -/
def Flt.roundEven (q : ℚ) : Int :=
  let n : Int := q.num / (q.den : Int)
  let f : ℚ := q - n
  if f < 1 / 2 then n else if 1 / 2 < f then n + 1 else if n % 2 = 0 then n else n + 1

/-- Rounding to single precision: the nearest number with a significand of 24 binary digits
and an exponent of at least -126, the one with the even significand when two are equally
near; the infinity of the sign of `q` when the rounded value is `2 ^ 128` or more. -/
def Flt.round (q : ℚ) : Flt :=
  let e : Int := max (Flt.exponent q) (-126)
  let ulp : ℚ := Flt.pow2 (e - 23)
  let r : ℚ := (Flt.roundEven (q / ulp) : ℚ) * ulp
  if Flt.pow2 128 ≤ Flt.absq r then Flt.inf (decide (q < 0)) else Flt.fin r

/-- Float addition: the sum, rounded; adding zero returns the other operand, and the sum of
the two infinities is a NaN. -/
def Flt.add : Flt → Flt → Flt
  | .fin a, .fin b => if b = 0 then .fin a else if a = 0 then .fin b else Flt.round (a + b)
  | .fin _, .inf s => .inf s
  | .inf s, .fin _ => .inf s
  | .inf s, .inf t => if s = t then .inf s else .nan
  | _, _ => .nan

/-- Float subtraction: the difference, rounded; subtracting zero returns the operand, and
the difference of an infinity and itself is a NaN. -/
def Flt.sub : Flt → Flt → Flt
  | .fin a, .fin b => if b = 0 then .fin a else Flt.round (a - b)
  | .fin _, .inf s => .inf (!s)
  | .inf s, .fin _ => .inf s
  | .inf s, .inf t => if s = t then .nan else .inf s
  | _, _ => .nan

/-- Float multiplication: the product, rounded; multiplying by one returns the other
operand, and zero times an infinity is a NaN. -/
def Flt.mul : Flt → Flt → Flt
  | .fin a, .fin b => if a = 1 then .fin b else if b = 1 then .fin a else Flt.round (a * b)
  | .fin a, .inf s => if a = 0 then .nan else .inf (xor (decide (a < 0)) s)
  | .inf s, .fin b => if b = 0 then .nan else .inf (xor s (decide (b < 0)))
  | .inf s, .inf t => .inf (xor s t)
  | _, _ => .nan

/-- Float negation. -/
def Flt.neg : Flt → Flt
  | .fin a => .fin (-a)
  | .inf s => .inf (!s)
  | .nan => .nan

/-- Float division: the quotient, rounded; dividing by one returns the operand.  A value
that is not zero divided by zero is the infinity of its sign (the zero divisors of the rope
code are sums of products of non-negative values), zero divided by zero is a NaN, a finite
value divided by an infinity is zero, and an infinity divided by an infinity is a NaN. -/
def Flt.div : Flt → Flt → Flt
  | .fin a, .fin b =>
    if b = 0 then (if a = 0 then .nan else .inf (decide (a < 0)))
    else if b = 1 then .fin a else Flt.round (a / b)
  | .fin _, .inf _ => .fin 0
  | .inf s, .fin b => .inf (xor s (decide (b < 0)))
  | _, _ => .nan

instance : Add Flt := ⟨Flt.add⟩
instance : Sub Flt := ⟨Flt.sub⟩
instance : Mul Flt := ⟨Flt.mul⟩
instance : Neg Flt := ⟨Flt.neg⟩
instance : Div Flt := ⟨Flt.div⟩

/-- The comparison `a < b` of two floats; false when either is a NaN. -/
def Flt.blt : Flt → Flt → Bool
  | .fin a, .fin b => decide (a < b)
  | .fin _, .inf s => !s
  | .inf s, .fin _ => s
  | .inf s, .inf t => s && !t
  | _, _ => false

/-- The comparison `a <= b` of two floats; false when either is a NaN. -/
def Flt.ble : Flt → Flt → Bool
  | .fin a, .fin b => decide (a ≤ b)
  | .fin _, .inf s => !s
  | .inf s, .fin _ => s
  | .inf s, .inf t => s || !t
  | _, _ => false

/-- The float is finite. -/
def Flt.isFin : Flt → Bool
  | .fin _ => true
  | _ => false

/-! ## The math header: vectors and scalar primitives -/

/-- The 2-D vector `b2Vec2`, over the rationals (values passed in) or over floats. -/
@[ext]
structure b2Vec2 (α : Type) where
  x : α
  y : α
deriving DecidableEq

instance {α : Type} [Add α] : Add (b2Vec2 α) := ⟨fun a b => ⟨a.x + b.x, a.y + b.y⟩⟩
instance {α : Type} [Sub α] : Sub (b2Vec2 α) := ⟨fun a b => ⟨a.x - b.x, a.y - b.y⟩⟩
instance {α : Type} [Neg α] : Neg (b2Vec2 α) := ⟨fun a => ⟨-a.x, -a.y⟩⟩
instance {α : Type} [Mul α] : SMul α (b2Vec2 α) := ⟨fun s v => ⟨s * v.x, s * v.y⟩⟩

/-- The dot product `b2Dot`. -/
def b2Dot {α : Type} [Add α] [Mul α] (a b : b2Vec2 α) : α := a.x * b.x + a.y * b.y

/-- The 2-D cross product `b2Cross`. -/
def b2Cross {α : Type} [Sub α] [Mul α] (a b : b2Vec2 α) : α := a.x * b.y - a.y * b.x

/-- The skew vector `b2Vec2::Skew`, `(-y, x)`. -/
def b2Vec2.Skew {α : Type} [Neg α] (v : b2Vec2 α) : b2Vec2 α := ⟨-v.y, v.x⟩

/-- The squared length `b2Vec2::LengthSquared`. -/
def b2Vec2.LengthSquared {α : Type} [Add α] [Mul α] (v : b2Vec2 α) : α := v.x * v.x + v.y * v.y

/-- The in-place product `b2Vec2::operator*=` with a scalar. -/
def b2Vec2.mulAssign {α : Type} [Mul α] (v : b2Vec2 α) (a : α) : b2Vec2 α := ⟨v.x * a, v.y * a⟩

/-- A vector passed in, as a float vector. -/
def b2Vec2.toFlt (v : b2Vec2 ℚ) : b2Vec2 Flt := ⟨Flt.fin v.x, Flt.fin v.y⟩

/-- The zero vector, `b2Vec2::SetZero`. -/
def b2Vec2.zero : b2Vec2 Flt := ⟨Flt.fin 0, Flt.fin 0⟩

/-- The primitives and constants of the math header that the rope code uses and whose values
the sources do not fix: the square root, `atan2`, `expf`, `b2Vec2::Normalize` (which returns
the length and the normalized vector) and `b2_pi`.  They are parameters of the embedding. -/
structure b2Math where
  b2Sqrt : Flt → Flt
  b2Atan2 : Flt → Flt → Flt
  expf : Flt → Flt
  Normalize : b2Vec2 Flt → Flt × b2Vec2 Flt
  b2_pi : ℚ

/-- The length `b2Vec2::Length`: the square root of the squared length. -/
def b2Vec2.Length (M : b2Math) (v : b2Vec2 Flt) : Flt := M.b2Sqrt v.LengthSquared

/-- The distance `b2Distance` of two points: the length of their difference. -/
def b2Distance (M : b2Math) (a b : b2Vec2 Flt) : Flt := (a - b).Length M
/-! ## Data model -/

/-- The bending models that the solver dispatches on. -/
inductive b2BendingModel where
  | b2_springAngleBendingModel
  | b2_pbdAngleBendingModel
  | b2_xpbdAngleBendingModel
  | b2_softAngleBendingModel
  | b2_pbdDistanceBendingModel
  | b2_pbdHeightBendingModel
deriving DecidableEq

open b2BendingModel

/-- The tuning record `b2RopeTuning`. -/
structure b2RopeTuning where
  stretchStiffness : ℚ
  bendStiffness : ℚ
  bendHertz : ℚ
  bendDamping : ℚ
  damping : ℚ
  bendingModel : b2BendingModel
  isometric : Bool
  fixedEffectiveMass : Bool
  warmStart : Bool
deriving DecidableEq

/-- The definition record `b2RopeDef`; `vertices` and `masses` are arrays of `count`
entries. -/
structure b2RopeDef where
  position : b2Vec2 ℚ
  vertices : Nat → b2Vec2 ℚ
  count : Nat
  masses : Nat → ℚ
  gravity : b2Vec2 ℚ
  tuning : b2RopeTuning

/-- A stretch constraint `b2RopeStretch`. -/
structure b2RopeStretch where
  i1 : Nat
  i2 : Nat
  invMass1 : Flt
  invMass2 : Flt
  L : Flt
deriving DecidableEq

/-- A bend constraint `b2RopeBend`. -/
structure b2RopeBend where
  i1 : Nat
  i2 : Nat
  i3 : Nat
  invMass1 : Flt
  invMass2 : Flt
  invMass3 : Flt
  invEffectiveMass : Flt
  lambda : Flt
  L1 : Flt
  L2 : Flt
deriving DecidableEq

/-- The rope `b2Rope`. -/
structure b2Rope where
  m_position : b2Vec2 ℚ
  m_count : Nat
  m_stretchCount : Nat
  m_bendCount : Nat
  m_stretchConstraints : Nat → b2RopeStretch
  m_bendConstraints : Nat → b2RopeBend
  m_bindPositions : Nat → b2Vec2 ℚ
  m_ps : Nat → b2Vec2 Flt
  m_p0s : Nat → b2Vec2 Flt
  m_vs : Nat → b2Vec2 Flt
  m_invMasses : Nat → Flt
  m_gravity : b2Vec2 ℚ
  m_tuning : b2RopeTuning

/-- The loop `for (i = 0; i < n; ++i) body(i)` on a state. -/
def forLoop {σ : Type} (n : Nat) (body : Nat → σ → σ) (s : σ) : σ :=
  match n with
  | 0 => s
  | k + 1 => body k (forLoop k body s)

/-! ## Create, SetTuning, Reset -/

/-- The rope before `Create` fills it: freshly allocated arrays. -/
def b2Rope.fresh (d : b2RopeDef) : b2Rope :=
  { m_position := d.position
    m_count := d.count
    m_stretchCount := 0
    m_bendCount := 0
    m_stretchConstraints := fun _ => ⟨0, 0, Flt.fin 0, Flt.fin 0, Flt.fin 0⟩
    m_bendConstraints := fun _ =>
      ⟨0, 0, 0, Flt.fin 0, Flt.fin 0, Flt.fin 0, Flt.fin 0, Flt.fin 0, Flt.fin 0, Flt.fin 0⟩
    m_bindPositions := fun _ => ⟨0, 0⟩
    m_ps := fun _ => b2Vec2.zero
    m_p0s := fun _ => b2Vec2.zero
    m_vs := fun _ => b2Vec2.zero
    m_invMasses := fun _ => Flt.fin 0
    m_gravity := ⟨0, 0⟩
    m_tuning := d.tuning }

/-- Body of the first loop of `Create`: particle `i`. -/
def Create_particle (d : b2RopeDef) (i : Nat) (r : b2Rope) : b2Rope :=
  let m := d.masses i
  { r with
    m_bindPositions := Function.update r.m_bindPositions i (d.vertices i)
    m_ps := Function.update r.m_ps i ((d.vertices i).toFlt + r.m_position.toFlt)
    m_p0s := Function.update r.m_p0s i ((d.vertices i).toFlt + r.m_position.toFlt)
    m_vs := Function.update r.m_vs i b2Vec2.zero
    m_invMasses := Function.update r.m_invMasses i
      (if 0 < m then Flt.fin 1 / Flt.fin m else Flt.fin 0) }

/-- Body of the second loop of `Create`: stretch constraint `i`. -/
def Create_stretch (M : b2Math) (i : Nat) (r : b2Rope) : b2Rope :=
  let p1 := r.m_ps i
  let p2 := r.m_ps (i + 1)
  { r with
    m_stretchConstraints := Function.update r.m_stretchConstraints i
      { i1 := i
        i2 := i + 1
        L := b2Distance M p1 p2
        invMass1 := r.m_invMasses i
        invMass2 := r.m_invMasses (i + 1) } }

/-- The effective inverse mass that `Create` precomputes for a bend constraint over the
points `p1`, `p2`, `p3`; it stays 0 when the product of the squared edge lengths is 0. -/
def Create_invEffectiveMass (invMass1 invMass2 invMass3 : Flt) (p1 p2 p3 : b2Vec2 Flt) : Flt :=
  let d1 := p2 - p1
  let d2 := p3 - p2
  let L1sqr := d1.LengthSquared
  let L2sqr := d2.LengthSquared
  if L1sqr * L2sqr = Flt.fin 0 then Flt.fin 0
  else
    let Jd1 := (Flt.fin (-1) / L1sqr) • d1.Skew
    let Jd2 := (Flt.fin 1 / L2sqr) • d2.Skew
    let J1 := -Jd1
    let J2 := Jd1 - Jd2
    let J3 := Jd2
    invMass1 * b2Dot J1 J1 + invMass2 * b2Dot J2 J2 + invMass3 * b2Dot J3 J3

/-- Body of the third loop of `Create`: bend constraint `i`. -/
def Create_bend (M : b2Math) (i : Nat) (r : b2Rope) : b2Rope :=
  let p1 := r.m_ps i
  let p2 := r.m_ps (i + 1)
  let p3 := r.m_ps (i + 2)
  { r with
    m_bendConstraints := Function.update r.m_bendConstraints i
      { i1 := i
        i2 := i + 1
        i3 := i + 2
        invMass1 := r.m_invMasses i
        invMass2 := r.m_invMasses (i + 1)
        invMass3 := r.m_invMasses (i + 2)
        invEffectiveMass :=
          Create_invEffectiveMass (r.m_invMasses i) (r.m_invMasses (i + 1))
            (r.m_invMasses (i + 2)) p1 p2 p3
        L1 := b2Distance M p1 p2
        L2 := b2Distance M p2 p3
        lambda := Flt.fin 0 } }

/-- The function `b2Rope::Create`; `none` when `b2Assert(def.count >= 3)` fails. -/
def Create (M : b2Math) (d : b2RopeDef) : Option b2Rope :=
  if d.count < 3 then none
  else
    let r1 := forLoop d.count (Create_particle d) (b2Rope.fresh d)
    let r2 := { r1 with m_stretchCount := r1.m_count - 1, m_bendCount := r1.m_count - 2 }
    let r3 := forLoop r2.m_stretchCount (Create_stretch M) r2
    let r4 := forLoop r3.m_bendCount (Create_bend M) r3
    some { r4 with m_gravity := d.gravity, m_tuning := d.tuning }

/-- The function `b2Rope::SetTuning`. -/
def SetTuning (tuning : b2RopeTuning) (r : b2Rope) : b2Rope :=
  { r with m_tuning := tuning }

/-- Body of the first loop of `Reset`: particle `i`. -/
def Reset_particle (i : Nat) (r : b2Rope) : b2Rope :=
  { r with
    m_ps := Function.update r.m_ps i ((r.m_bindPositions i).toFlt + r.m_position.toFlt)
    m_p0s := Function.update r.m_p0s i ((r.m_bindPositions i).toFlt + r.m_position.toFlt)
    m_vs := Function.update r.m_vs i b2Vec2.zero }

/-- Body of the loops that clear the multipliers: `m_bendConstraints[i].lambda = 0`. -/
def clearLambda (i : Nat) (r : b2Rope) : b2Rope :=
  { r with
    m_bendConstraints := Function.update r.m_bendConstraints i
      { r.m_bendConstraints i with lambda := Flt.fin 0 } }

/-- The function `b2Rope::Reset`. -/
def Reset (position : b2Vec2 ℚ) (r : b2Rope) : b2Rope :=
  let r1 := { r with m_position := position }
  let r2 := forLoop r1.m_count Reset_particle r1
  forLoop r2.m_bendCount clearLambda r2

/-! ## The stretch solver -/

/-- Body of the loop of `SolveStretch`: stretch constraint `i`. -/
def SolveStretch_body (M : b2Math) (i : Nat) (r : b2Rope) : b2Rope :=
  let stiffness := Flt.fin r.m_tuning.stretchStiffness
  let c := r.m_stretchConstraints i
  let p1 := r.m_ps c.i1
  let p2 := r.m_ps c.i2
  let d := p2 - p1
  let L := (M.Normalize d).1
  let d := (M.Normalize d).2
  let sum := c.invMass1 + c.invMass2
  if sum = Flt.fin 0 then r
  else
    let s1 := c.invMass1 / sum
    let s2 := c.invMass2 / sum
    let p1 := p1 - (stiffness * s1 * (c.L - L)) • d
    let p2 := p2 + (stiffness * s2 * (c.L - L)) • d
    { r with m_ps := Function.update (Function.update r.m_ps c.i1 p1) c.i2 p2 }

/-- The function `b2Rope::SolveStretch`. -/
def SolveStretch (M : b2Math) (r : b2Rope) : b2Rope :=
  forLoop r.m_stretchCount (SolveStretch_body M) r

/-! ## The bend solvers -/

/-- Body of the loop of `SolveBend_PBD_Angle`: bend constraint `i`. -/
def SolveBend_PBD_Angle_body (M : b2Math) (i : Nat) (r : b2Rope) : b2Rope :=
  let stiffness := Flt.fin r.m_tuning.bendStiffness
  let c := r.m_bendConstraints i
  let p1 := r.m_ps c.i1
  let p2 := r.m_ps c.i2
  let p3 := r.m_ps c.i3
  let d1 := p2 - p1
  let d2 := p3 - p2
  let a := b2Cross d1 d2
  let b := b2Dot d1 d2
  let angle := M.b2Atan2 a b
  let L1sqr := if r.m_tuning.isometric then c.L1 * c.L1 else d1.LengthSquared
  let L2sqr := if r.m_tuning.isometric then c.L2 * c.L2 else d2.LengthSquared
  if L1sqr * L2sqr = Flt.fin 0 then r
  else
    let Jd1 := (Flt.fin (-1) / L1sqr) • d1.Skew
    let Jd2 := (Flt.fin 1 / L2sqr) • d2.Skew
    let J1 := -Jd1
    let J2 := Jd1 - Jd2
    let J3 := Jd2
    let sum :=
      if r.m_tuning.fixedEffectiveMass then c.invEffectiveMass
      else c.invMass1 * b2Dot J1 J1 + c.invMass2 * b2Dot J2 J2 + c.invMass3 * b2Dot J3 J3
    let sum := if sum = Flt.fin 0 then c.invEffectiveMass else sum
    let mass := Flt.fin 1 / sum
    let C := angle
    let impulse := -stiffness * mass * C
    let p1 := p1 + (c.invMass1 * impulse) • J1
    let p2 := p2 + (c.invMass2 * impulse) • J2
    let p3 := p3 + (c.invMass3 * impulse) • J3
    { r with
      m_ps := Function.update (Function.update (Function.update r.m_ps c.i1 p1) c.i2 p2) c.i3 p3 }

/-- The function `b2Rope::SolveBend_PBD_Angle`. -/
def SolveBend_PBD_Angle (M : b2Math) (r : b2Rope) : b2Rope :=
  forLoop r.m_bendCount (SolveBend_PBD_Angle_body M) r

/-- Body of the loop of `SolveBend_XPBD_Angle`: bend constraint `i`. -/
def SolveBend_XPBD_Angle_body (M : b2Math) (dt : ℚ) (i : Nat) (r : b2Rope) : b2Rope :=
  let omega := Flt.fin 2 * Flt.fin M.b2_pi * Flt.fin r.m_tuning.bendHertz
  let c := r.m_bendConstraints i
  let p1 := r.m_ps c.i1
  let p2 := r.m_ps c.i2
  let p3 := r.m_ps c.i3
  let dp1 := p1 - r.m_p0s c.i1
  let dp2 := p2 - r.m_p0s c.i2
  let dp3 := p3 - r.m_p0s c.i3
  let d1 := p2 - p1
  let d2 := p3 - p2
  let L1sqr := if r.m_tuning.isometric then c.L1 * c.L1 else d1.LengthSquared
  let L2sqr := if r.m_tuning.isometric then c.L2 * c.L2 else d2.LengthSquared
  if L1sqr * L2sqr = Flt.fin 0 then r
  else
    let a := b2Cross d1 d2
    let b := b2Dot d1 d2
    let angle := M.b2Atan2 a b
    let Jd1 := (Flt.fin (-1) / L1sqr) • d1.Skew
    let Jd2 := (Flt.fin 1 / L2sqr) • d2.Skew
    let J1 := -Jd1
    let J2 := Jd1 - Jd2
    let J3 := Jd2
    let sum :=
      if r.m_tuning.fixedEffectiveMass then c.invEffectiveMass
      else c.invMass1 * b2Dot J1 J1 + c.invMass2 * b2Dot J2 J2 + c.invMass3 * b2Dot J3 J3
    if sum = Flt.fin 0 then r
    else
      let mass := Flt.fin 1 / sum
      let spring := mass * omega * omega
      let damper := Flt.fin 2 * mass * Flt.fin r.m_tuning.bendDamping * omega
      let alpha := Flt.fin 1 / (spring * Flt.fin dt * Flt.fin dt)
      let beta := Flt.fin dt * Flt.fin dt * damper
      let gamma := alpha * beta / Flt.fin dt
      let C := angle
      let Cdot := b2Dot J1 dp1 + b2Dot J2 dp2 + b2Dot J3 dp3
      let B := C + alpha * c.lambda + gamma * Cdot
      let sum2 := (Flt.fin 1 + alpha * beta / Flt.fin dt) * sum + alpha
      let impulse := -B / sum2
      let p1 := p1 + (c.invMass1 * impulse) • J1
      let p2 := p2 + (c.invMass2 * impulse) • J2
      let p3 := p3 + (c.invMass3 * impulse) • J3
      { r with
        m_ps :=
          Function.update (Function.update (Function.update r.m_ps c.i1 p1) c.i2 p2) c.i3 p3
        m_bendConstraints := Function.update r.m_bendConstraints i
          { c with lambda := c.lambda + impulse } }

/-- The function `b2Rope::SolveBend_XPBD_Angle`; `none` when `b2Assert(dt > 0.0f)` fails. -/
def SolveBend_XPBD_Angle (M : b2Math) (dt : ℚ) (r : b2Rope) : Option b2Rope :=
  if 0 < dt then some (forLoop r.m_bendCount (SolveBend_XPBD_Angle_body M dt) r) else none

/-- Body of the loop of `SolveBend_Soft_Angle`: bend constraint `i`. -/
def SolveBend_Soft_Angle_body (M : b2Math) (dt : ℚ) (i : Nat) (r : b2Rope) : b2Rope :=
  let inv_dt := Flt.fin 1 / Flt.fin dt
  let omega := Flt.fin 2 * Flt.fin M.b2_pi * Flt.fin r.m_tuning.bendHertz
  let c := r.m_bendConstraints i
  let p1 := r.m_ps c.i1
  let p2 := r.m_ps c.i2
  let p3 := r.m_ps c.i3
  let v1 := inv_dt • (p1 - r.m_p0s c.i1)
  let v2 := inv_dt • (p2 - r.m_p0s c.i2)
  let v3 := inv_dt • (p3 - r.m_p0s c.i3)
  let d1 := p2 - p1
  let d2 := p3 - p2
  let L1sqr := if r.m_tuning.isometric then c.L1 * c.L1 else d1.LengthSquared
  let L2sqr := if r.m_tuning.isometric then c.L2 * c.L2 else d2.LengthSquared
  if L1sqr * L2sqr = Flt.fin 0 then r
  else
    let a := b2Cross d1 d2
    let b := b2Dot d1 d2
    let C := M.b2Atan2 a b
    let Jd1 := (Flt.fin (-1) / L1sqr) • d1.Skew
    let Jd2 := (Flt.fin 1 / L2sqr) • d2.Skew
    let J1 := -Jd1
    let J2 := Jd1 - Jd2
    let J3 := Jd2
    let sum := c.invMass1 * b2Dot J1 J1 + c.invMass2 * b2Dot J2 J2 + c.invMass3 * b2Dot J3 J3
    if sum = Flt.fin 0 then r
    else
      let mass := Flt.fin 1 / sum
      let spring := mass * omega * omega
      let damper := Flt.fin 2 * mass * Flt.fin r.m_tuning.bendDamping * omega
      let gamma := Flt.fin dt * (damper + Flt.fin dt * spring)
      let gamma := if gamma = Flt.fin 0 then gamma else Flt.fin 1 / gamma
      let mass := Flt.fin 1 / (sum + gamma)
      let bias := C * Flt.fin dt * spring * gamma
      let Cdot := b2Dot J1 v1 + b2Dot J2 v2 + b2Dot J3 v3
      let impulse := -mass * (Cdot + bias + gamma * c.lambda)
      let v1 := v1 + (c.invMass1 * impulse) • J1
      let v2 := v2 + (c.invMass2 * impulse) • J2
      let v3 := v3 + (c.invMass3 * impulse) • J3
      let ps1 := Function.update r.m_ps c.i1 (r.m_p0s c.i1 + Flt.fin dt • v1)
      let ps2 := Function.update ps1 c.i2 (r.m_p0s c.i2 + Flt.fin dt • v2)
      let ps3 := Function.update ps2 c.i3 (r.m_p0s c.i3 + Flt.fin dt • v3)
      { r with
        m_ps := ps3
        m_bendConstraints := Function.update r.m_bendConstraints i
          { c with lambda := c.lambda + impulse } }

/-- The function `b2Rope::SolveBend_Soft_Angle`; `none` when `b2Assert(dt > 0.0f)` fails. -/
def SolveBend_Soft_Angle (M : b2Math) (dt : ℚ) (r : b2Rope) : Option b2Rope :=
  if 0 < dt then some (forLoop r.m_bendCount (SolveBend_Soft_Angle_body M dt) r) else none

/-- Body of the loop of `ApplyBendForces`: bend constraint `i`. -/
def ApplyBendForces_body (M : b2Math) (dt : ℚ) (i : Nat) (r : b2Rope) : b2Rope :=
  let omega := Flt.fin 2 * Flt.fin M.b2_pi * Flt.fin r.m_tuning.bendHertz
  let c := r.m_bendConstraints i
  let p1 := r.m_ps c.i1
  let p2 := r.m_ps c.i2
  let p3 := r.m_ps c.i3
  let v1 := r.m_vs c.i1
  let v2 := r.m_vs c.i2
  let v3 := r.m_vs c.i3
  let d1 := p2 - p1
  let d2 := p3 - p2
  let L1sqr := if r.m_tuning.isometric then c.L1 * c.L1 else d1.LengthSquared
  let L2sqr := if r.m_tuning.isometric then c.L2 * c.L2 else d2.LengthSquared
  if L1sqr * L2sqr = Flt.fin 0 then r
  else
    let a := b2Cross d1 d2
    let b := b2Dot d1 d2
    let angle := M.b2Atan2 a b
    let Jd1 := (Flt.fin (-1) / L1sqr) • d1.Skew
    let Jd2 := (Flt.fin 1 / L2sqr) • d2.Skew
    let J1 := -Jd1
    let J2 := Jd1 - Jd2
    let J3 := Jd2
    let sum :=
      if r.m_tuning.fixedEffectiveMass then c.invEffectiveMass
      else c.invMass1 * b2Dot J1 J1 + c.invMass2 * b2Dot J2 J2 + c.invMass3 * b2Dot J3 J3
    if sum = Flt.fin 0 then r
    else
      let mass := Flt.fin 1 / sum
      let spring := mass * omega * omega
      let damper := Flt.fin 2 * mass * Flt.fin r.m_tuning.bendDamping * omega
      let C := angle
      let Cdot := b2Dot J1 v1 + b2Dot J2 v2 + b2Dot J3 v3
      let impulse := -Flt.fin dt * (spring * C + damper * Cdot)
      let vs1 := Function.update r.m_vs c.i1 (r.m_vs c.i1 + (c.invMass1 * impulse) • J1)
      let vs2 := Function.update vs1 c.i2 (vs1 c.i2 + (c.invMass2 * impulse) • J2)
      let vs3 := Function.update vs2 c.i3 (vs2 c.i3 + (c.invMass3 * impulse) • J3)
      { r with m_vs := vs3 }

/-- The function `b2Rope::ApplyBendForces`. -/
def ApplyBendForces (M : b2Math) (dt : ℚ) (r : b2Rope) : b2Rope :=
  forLoop r.m_bendCount (ApplyBendForces_body M dt) r

/-- Body of the loop of `SolveBend_PBD_Distance`: bend constraint `i`. -/
def SolveBend_PBD_Distance_body (M : b2Math) (i : Nat) (r : b2Rope) : b2Rope :=
  let stiffness := Flt.fin r.m_tuning.bendStiffness
  let c := r.m_bendConstraints i
  let i1 := c.i1
  let i2 := c.i3
  let p1 := r.m_ps i1
  let p2 := r.m_ps i2
  let d := p2 - p1
  let L := (M.Normalize d).1
  let d := (M.Normalize d).2
  let sum := c.invMass1 + c.invMass3
  if sum = Flt.fin 0 then r
  else
    let s1 := c.invMass1 / sum
    let s2 := c.invMass3 / sum
    let p1 := p1 - (stiffness * s1 * (c.L1 + c.L2 - L)) • d
    let p2 := p2 + (stiffness * s2 * (c.L1 + c.L2 - L)) • d
    { r with m_ps := Function.update (Function.update r.m_ps i1 p1) i2 p2 }

/-- The function `b2Rope::SolveBend_PBD_Distance`. -/
def SolveBend_PBD_Distance (M : b2Math) (r : b2Rope) : b2Rope :=
  forLoop r.m_bendCount (SolveBend_PBD_Distance_body M) r

/-- Body of the loop of `SolveBend_PBD_Height`: bend constraint `i`. -/
def SolveBend_PBD_Height_body (M : b2Math) (i : Nat) (r : b2Rope) : b2Rope :=
  let stiffness := Flt.fin r.m_tuning.bendStiffness
  let c := r.m_bendConstraints i
  let p1 := r.m_ps c.i1
  let p2 := r.m_ps c.i2
  let p3 := r.m_ps c.i3
  let e1 := p2 - p1
  let e2 := p3 - p2
  let r' := p3 - p1
  let rr := r'.LengthSquared
  if rr = Flt.fin 0 then r
  else
    let alpha := b2Dot e2 r' / rr
    let beta := b2Dot e1 r' / rr
    let d := alpha • p1 + beta • p3 - p2
    let dLen := d.Length M
    if dLen = Flt.fin 0 then r
    else
      let dHat := (Flt.fin 1 / dLen) • d
      let J1 := alpha • dHat
      let J2 := -dHat
      let J3 := beta • dHat
      let sum := c.invMass1 * b2Dot J1 J1 + c.invMass2 * b2Dot J2 J2 + c.invMass3 * b2Dot J3 J3
      if sum = Flt.fin 0 then r
      else
        let C := dLen
        let mass := Flt.fin 1 / sum
        let impulse := -stiffness * mass * C
        let p1 := p1 + (c.invMass1 * impulse) • J1
        let p2 := p2 + (c.invMass2 * impulse) • J2
        let p3 := p3 + (c.invMass3 * impulse) • J3
        { r with
          m_ps :=
            Function.update (Function.update (Function.update r.m_ps c.i1 p1) c.i2 p2) c.i3 p3 }

/-- The function `b2Rope::SolveBend_PBD_Height`. -/
def SolveBend_PBD_Height (M : b2Math) (r : b2Rope) : b2Rope :=
  forLoop r.m_bendCount (SolveBend_PBD_Height_body M) r

/-! ## Step -/

/-- Body of the loop "apply gravity and damping" of `Step`: particle `i`. -/
def Step_integrate (M : b2Math) (dt : ℚ) (position : b2Vec2 ℚ) (i : Nat) (r : b2Rope) :
    b2Rope :=
  let inv_dt := Flt.fin 1 / Flt.fin dt
  let d := M.expf (-Flt.fin dt * Flt.fin r.m_tuning.damping)
  if (Flt.fin 0).blt (r.m_invMasses i) then
    { r with
      m_vs := Function.update r.m_vs i
        ((r.m_vs i + Flt.fin dt • r.m_gravity.toFlt).mulAssign d) }
  else
    { r with
      m_vs := Function.update r.m_vs i
        (inv_dt • ((r.m_bindPositions i).toFlt + position.toFlt - r.m_p0s i)) }

/-- Body of the warm-start loop of `Step`: bend constraint `i`. -/
def Step_warmStart (i : Nat) (r : b2Rope) : b2Rope :=
  let c := r.m_bendConstraints i
  let p1 := r.m_ps c.i1
  let p2 := r.m_ps c.i2
  let p3 := r.m_ps c.i3
  let d1 := p2 - p1
  let d2 := p3 - p2
  let L1sqr := if r.m_tuning.isometric then c.L1 * c.L1 else d1.LengthSquared
  let L2sqr := if r.m_tuning.isometric then c.L2 * c.L2 else d2.LengthSquared
  if L1sqr * L2sqr = Flt.fin 0 then r
  else
    let Jd1 := (Flt.fin (-1) / L1sqr) • d1.Skew
    let Jd2 := (Flt.fin 1 / L2sqr) • d2.Skew
    let J1 := -Jd1
    let J2 := Jd1 - Jd2
    let J3 := Jd2
    let vs1 := Function.update r.m_vs c.i1 (r.m_vs c.i1 + (c.invMass1 * c.lambda) • J1)
    let vs2 := Function.update vs1 c.i2 (vs1 c.i2 + (c.invMass2 * c.lambda) • J2)
    let vs3 := Function.update vs2 c.i3 (vs2 c.i3 + (c.invMass3 * c.lambda) • J3)
    { r with m_vs := vs3 }

/-- Body of the loop "update position" of `Step`: particle `i`. -/
def Step_updatePosition (dt : ℚ) (i : Nat) (r : b2Rope) : b2Rope :=
  { r with m_ps := Function.update r.m_ps i (r.m_ps i + Flt.fin dt • r.m_vs i) }

/-- The bend pass that the tuning selects in the loop "solve constraints" of `Step`; `none`
when the pass fails its assertion. -/
def Step_bend (M : b2Math) (dt : ℚ) (r : b2Rope) : Option b2Rope :=
  if r.m_tuning.bendingModel = b2_pbdAngleBendingModel then some (SolveBend_PBD_Angle M r)
  else if r.m_tuning.bendingModel = b2_xpbdAngleBendingModel then SolveBend_XPBD_Angle M dt r
  else if r.m_tuning.bendingModel = b2_softAngleBendingModel then SolveBend_Soft_Angle M dt r
  else if r.m_tuning.bendingModel = b2_pbdDistanceBendingModel then
    some (SolveBend_PBD_Distance M r)
  else if r.m_tuning.bendingModel = b2_pbdHeightBendingModel then
    some (SolveBend_PBD_Height M r)
  else some r

/-- One pass of the loop "solve constraints" of `Step`: the bend pass that the tuning
selects, then `SolveStretch`. -/
def Step_solve (M : b2Math) (dt : ℚ) (r : b2Rope) : Option b2Rope :=
  (Step_bend M dt r).map (SolveStretch M)

/-- The loop "solve constraints" of `Step`, run `n` times. -/
def Step_iterate (M : b2Math) (dt : ℚ) (n : Nat) (r : b2Rope) : Option b2Rope :=
  match n with
  | 0 => some r
  | k + 1 => (Step_iterate M dt k r).bind (Step_solve M dt)

/-- Body of the loop "constrain velocity" of `Step`: particle `i`. -/
def Step_constrainVelocity (dt : ℚ) (i : Nat) (r : b2Rope) : b2Rope :=
  let inv_dt := Flt.fin 1 / Flt.fin dt
  { r with
    m_vs := Function.update r.m_vs i (inv_dt • (r.m_ps i - r.m_p0s i))
    m_p0s := Function.update r.m_p0s i (r.m_ps i) }

/-- The state of `Step` when the loop "solve constraints" starts: after gravity, damping
and pinning, the spring or warm-start pass, and the position update. -/
def Step_predict (M : b2Math) (dt : ℚ) (position : b2Vec2 ℚ) (r : b2Rope) : b2Rope :=
  let r1 := forLoop r.m_count (Step_integrate M dt position) r
  let r2 :=
    if r1.m_tuning.bendingModel = b2_springAngleBendingModel then ApplyBendForces M dt r1
    else r1
  let r3 :=
    if r2.m_tuning.bendingModel = b2_softAngleBendingModel ∧ r2.m_tuning.warmStart = true then
      forLoop r2.m_bendCount Step_warmStart r2
    else forLoop r2.m_bendCount clearLambda r2
  forLoop r3.m_count (Step_updatePosition dt) r3

/-- The function `b2Rope::Step`; the iteration count is a signed integer, and `none` is a
failed assertion of a bend pass. -/
def Step (M : b2Math) (dt : ℚ) (iterations : Int) (position : b2Vec2 ℚ) (r : b2Rope) :
    Option b2Rope :=
  if dt = 0 then some r
  else
    (Step_iterate M dt iterations.toNat (Step_predict M dt position r)).map
      (fun r5 => forLoop r5.m_count (Step_constrainVelocity dt) r5)

/-! ## An executable instance of the primitives -/

/-- The integer square root, digit by digit: `r` holds the digits above position `k`. -/
def Flt.isqrtAux (n : Nat) : Nat → Nat → Nat
  | 0, r => if (r + 1) * (r + 1) ≤ n then r + 1 else r
  | k + 1, r =>
    Flt.isqrtAux n k (if (r + 2 ^ (k + 1)) * (r + 2 ^ (k + 1)) ≤ n then r + 2 ^ (k + 1) else r)

/-- The integer square root: the greatest `r` with `r * r ≤ n`. -/
def Flt.isqrt (n : Nat) : Nat := Flt.isqrtAux n (Flt.ilog2 n n / 2 + 1) 0

/-- The single-precision square root `sqrtf`: the square root rounded to the nearest float,
a NaN for a negative argument. -/
def Flt.sqrt : Flt → Flt
  | .fin q =>
    if q < 0 then Flt.nan
    else if q = 0 then Flt.fin 0
    else
      let e : Int := Flt.exponent q / 2
      let ulp : ℚ := Flt.pow2 (e - 23)
      let t : ℚ := q / (ulp * ulp)
      let s : Nat := Flt.isqrt (t.num / (t.den : Int)).toNat
      let h : ℚ := ((s : ℚ) + 1 / 2) * ((s : ℚ) + 1 / 2)
      let n : Nat := if t < h then s else if h < t then s + 1 else if s % 2 = 0 then s else s + 1
      Flt.fin ((n : ℚ) * ulp)
  | .inf false => Flt.inf false
  | _ => Flt.nan

/-- A rational approximation of the arc tangent on `[-1, 1]`. -/
def ratAtan (z : ℚ) : ℚ := z / (1 + (7 / 25) * z * z)

/-- A rational approximation of `atan2 y x`, exact where the angle is 0, and equal to
`pi / 2` at `x = 0 < y`. -/
def ratAtan2 (pi : ℚ) (y x : ℚ) : ℚ :=
  if x = 0 ∧ y = 0 then 0
  else if |y| ≤ |x| then
    if 0 < x then ratAtan (y / x)
    else if 0 ≤ y then ratAtan (y / x) + pi
    else ratAtan (y / x) - pi
  else if 0 < y then pi / 2 - ratAtan (x / y)
  else -pi / 2 - ratAtan (x / y)

/-- A rational approximation of the exponential, exact at 0. -/
def ratExp (x : ℚ) : ℚ := 1 + x + x ^ 2 / 2 + x ^ 3 / 6 + x ^ 4 / 24

/-- An approximation of `atan2f`, rounded to single precision; at infinite arguments the
values of IEEE 754, in terms of the float `pi` nearest to the number. -/
def Flt.atan2 (pi : ℚ) : Flt → Flt → Flt
  | .fin y, .fin x => Flt.round (ratAtan2 pi y x)
  | .fin y, .inf s => if s then (if y < 0 then Flt.fin (-pi) else Flt.fin pi) else Flt.fin 0
  | .inf t, .fin _ => if t then Flt.fin (-pi / 2) else Flt.fin (pi / 2)
  | .inf t, .inf s =>
    if s then (if t then Flt.round (-3 * pi / 4) else Flt.round (3 * pi / 4))
    else (if t then Flt.fin (-pi / 4) else Flt.fin (pi / 4))
  | _, _ => Flt.nan

/-- An approximation of `expf`, rounded to single precision; 0 at the negative infinity. -/
def Flt.exp : Flt → Flt
  | .fin x => Flt.round (ratExp x)
  | .inf s => if s then Flt.fin 0 else Flt.inf false
  | .nan => Flt.nan

/-- Modelled from the spec: `b2Vec2::Normalize` of the math header, which is not among the
sources; the solver "normalizes to get direction and current length".  It returns the
length, and the vector scaled by the reciprocal of the length. -/
def Flt.normalize (v : b2Vec2 Flt) : Flt × b2Vec2 Flt :=
  let length := Flt.sqrt v.LengthSquared
  let invLength := Flt.fin 1 / length
  (length, ⟨v.x * invLength, v.y * invLength⟩)

/-- An executable instance of the primitives, used to run the embedding on concrete ropes:
the square root is `sqrtf`, `b2_pi` is the float nearest to `3.14159265359`, and `atan2`
and `expf` are approximations rounded to single precision. -/
def M0 : b2Math :=
  { b2Sqrt := Flt.sqrt
    b2Atan2 := Flt.atan2 (13176795 / 4194304)
    expf := Flt.exp
    Normalize := Flt.normalize
    b2_pi := 13176795 / 4194304 }
/-! ## Reachable states and the data no call after `Create` writes -/

/-- The states that calls of `SetTuning`, `Reset` and `Step` reach from the rope that
`Create` builds for the definition `d`. -/
inductive Reachable (M : b2Math) (d : b2RopeDef) : b2Rope → Prop
  | create {r : b2Rope} : Create M d = some r → Reachable M d r
  | setTuning {r : b2Rope} (t : b2RopeTuning) : Reachable M d r → Reachable M d (SetTuning t r)
  | reset {r : b2Rope} (a : b2Vec2 ℚ) : Reachable M d r → Reachable M d (Reset a r)
  | step {r r' : b2Rope} (dt : ℚ) (iterations : Int) (a : b2Vec2 ℚ) :
      Reachable M d r → Step M dt iterations a r = some r' → Reachable M d r'

/-- The data of a rope that only `Create` writes: the counts, the bind positions, the
inverse masses, the gravity, the stretch constraints, and the bend constraints apart from
their multiplier `lambda`. -/
structure b2RopeFixed where
  count : Nat
  stretchCount : Nat
  bendCount : Nat
  stretchConstraints : Nat → b2RopeStretch
  bendConstraints : Nat → b2RopeBend
  bindPositions : Nat → b2Vec2 ℚ
  invMasses : Nat → Flt
  gravity : b2Vec2 ℚ

/-- The fixed data of a rope; the multipliers are blanked. -/
def b2Rope.fixedPart (r : b2Rope) : b2RopeFixed :=
  { count := r.m_count
    stretchCount := r.m_stretchCount
    bendCount := r.m_bendCount
    stretchConstraints := r.m_stretchConstraints
    bendConstraints := fun i => { r.m_bendConstraints i with lambda := Flt.fin 0 }
    bindPositions := r.m_bindPositions
    invMasses := r.m_invMasses
    gravity := r.m_gravity }

/-- The float `x` is the value `y`, unless it is a NaN. -/
def Flt.isOrNan (x y : Flt) : Prop := x = Flt.nan ∨ x = y

/-- Each coordinate of `v` is the coordinate of `w`, unless it is a NaN. -/
def b2Vec2.isOrNan (v w : b2Vec2 Flt) : Prop := v.x.isOrNan w.x ∧ v.y.isOrNan w.y

/-- The assertions of the bend passes hold in a `Step` with this time step and iteration
count: the step is positive, or no iteration runs, or the bending model is neither
XPBD-Angle nor Soft-Angle. -/
def Step_runs (dt : ℚ) (iterations : Int) (t : b2RopeTuning) : Prop :=
  0 < dt ∨ iterations ≤ 0 ∨
    (t.bendingModel ≠ b2_xpbdAngleBendingModel ∧ t.bendingModel ≠ b2_softAngleBendingModel)

/-- What no pass of the solver writes: the fixed data, the tuning, the anchor and the
previous positions. -/
def b2Rope.kept (r : b2Rope) : b2RopeFixed × b2RopeTuning × b2Vec2 ℚ × (Nat → b2Vec2 Flt) :=
  (r.fixedPart, r.m_tuning, r.m_position, r.m_p0s)

/-- The constraints are laid out as `Create` lays them out: stretch constraint `j` joins
the particles `j` and `j + 1`, bend constraint `j` the particles `j`, `j + 1` and `j + 2`,
and each caches the inverse masses of its particles. -/
def b2RopeFixed.wellFormed (f : b2RopeFixed) : Prop :=
  3 ≤ f.count ∧ f.stretchCount = f.count - 1 ∧ f.bendCount = f.count - 2 ∧
  (∀ j, j < f.stretchCount →
    (f.stretchConstraints j).i1 = j ∧ (f.stretchConstraints j).i2 = j + 1 ∧
    (f.stretchConstraints j).invMass1 = f.invMasses j ∧
    (f.stretchConstraints j).invMass2 = f.invMasses (j + 1)) ∧
  (∀ j, j < f.bendCount →
    (f.bendConstraints j).i1 = j ∧ (f.bendConstraints j).i2 = j + 1 ∧
    (f.bendConstraints j).i3 = j + 2 ∧
    (f.bendConstraints j).invMass1 = f.invMasses j ∧
    (f.bendConstraints j).invMass2 = f.invMasses (j + 1) ∧
    (f.bendConstraints j).invMass3 = f.invMasses (j + 2))

/-- Both coordinates of the vector are finite. -/
def b2Vec2.isFin (v : b2Vec2 Flt) : Prop := v.x.isFin = true ∧ v.y.isFin = true

instance (v : b2Vec2 Flt) : Decidable v.isFin :=
  inferInstanceAs (Decidable (v.x.isFin = true ∧ v.y.isFin = true))

/-- The position that `Create` stores for particle `i`: the vertex plus the anchor, in
floats. -/
def Create_position (d : b2RopeDef) (i : Nat) : b2Vec2 Flt :=
  if i < d.count then (d.vertices i).toFlt + d.position.toFlt else b2Vec2.zero

/-- The inverse mass that `Create` stores for particle `i`. -/
def Create_invMass (d : b2RopeDef) (i : Nat) : Flt :=
  if i < d.count then (if 0 < d.masses i then Flt.fin 1 / Flt.fin (d.masses i) else Flt.fin 0)
  else Flt.fin 0

/-! ## The data that `Reset` and `Step` leave alone -/

/-- The rope `s` has the data of `r` that `Create` computed: the counts, the bind
positions, the inverse masses, the gravity, the stretch constraints, and of every bend
constraint the indices, the cached inverse masses, the rest lengths and the effective
inverse mass (everything but the multiplier `lambda`). -/
def b2Rope.sameFixedData (s r : b2Rope) : Prop :=
  s.m_count = r.m_count ∧ s.m_stretchCount = r.m_stretchCount ∧
  s.m_bendCount = r.m_bendCount ∧
  s.m_bindPositions = r.m_bindPositions ∧ s.m_invMasses = r.m_invMasses ∧
  s.m_gravity = r.m_gravity ∧
  s.m_stretchConstraints = r.m_stretchConstraints ∧
  ∀ j, (s.m_bendConstraints j).i1 = (r.m_bendConstraints j).i1 ∧
    (s.m_bendConstraints j).i2 = (r.m_bendConstraints j).i2 ∧
    (s.m_bendConstraints j).i3 = (r.m_bendConstraints j).i3 ∧
    (s.m_bendConstraints j).invMass1 = (r.m_bendConstraints j).invMass1 ∧
    (s.m_bendConstraints j).invMass2 = (r.m_bendConstraints j).invMass2 ∧
    (s.m_bendConstraints j).invMass3 = (r.m_bendConstraints j).invMass3 ∧
    (s.m_bendConstraints j).L1 = (r.m_bendConstraints j).L1 ∧
    (s.m_bendConstraints j).L2 = (r.m_bendConstraints j).L2 ∧
    (s.m_bendConstraints j).invEffectiveMass = (r.m_bendConstraints j).invEffectiveMass

/-! ## PBD-Distance as a stretch constraint -/

/-- The rope `r` in which the stretch stiffness is the bend stiffness and stretch
constraint `k` joins the outer particles of bend constraint `j`, with their cached inverse
masses and the rest length `L1 + L2`. -/
def outerStretch (r : b2Rope) (j k : Nat) : b2Rope :=
  { r with
    m_tuning := { r.m_tuning with stretchStiffness := r.m_tuning.bendStiffness }
    m_stretchConstraints := Function.update r.m_stretchConstraints k
      { i1 := (r.m_bendConstraints j).i1
        i2 := (r.m_bendConstraints j).i3
        invMass1 := (r.m_bendConstraints j).invMass1
        invMass2 := (r.m_bendConstraints j).invMass3
        L := (r.m_bendConstraints j).L1 + (r.m_bendConstraints j).L2 } }

/-! ## Values that are floats -/

/-- The rational `q` is a single-precision float: rounding leaves it as it is. -/
def Flt.isFloat (q : ℚ) : Prop := Flt.round q = Flt.fin q

instance (q : ℚ) : Decidable (Flt.isFloat q) := inferInstanceAs (Decidable (Flt.round q = Flt.fin q))

/-! ## Residuals of the bend passes -/

/-- A coordinate of the vector is a NaN. -/
def b2Vec2.hasNan (v : b2Vec2 Flt) : Prop := v.x = Flt.nan ∨ v.y = Flt.nan

instance (v : b2Vec2 Flt) : Decidable v.hasNan :=
  inferInstanceAs (Decidable (v.x = Flt.nan ∨ v.y = Flt.nan))

/-- A tuning with unit stiffnesses, bend frequency 1 and no damping. -/
def exampleTuning (m : b2BendingModel) (isometric : Bool) : b2RopeTuning :=
  { stretchStiffness := 1
    bendStiffness := 1
    bendHertz := 1
    bendDamping := 0
    damping := 0
    bendingModel := m
    isometric := isometric
    fixedEffectiveMass := false
    warmStart := false }

/-- The definition of a rope of three particles at the given vertices, anchored at the
origin. -/
def exampleDef (vertices : Nat → b2Vec2 ℚ) (masses : Nat → ℚ) (gravity : b2Vec2 ℚ)
    (t : b2RopeTuning) : b2RopeDef :=
  { position := ⟨0, 0⟩
    vertices := vertices
    count := 3
    masses := masses
    gravity := gravity
    tuning := t }

/-- The rope that `Create` builds for a definition, run with the executable primitives. -/
def ropeOf (d : b2RopeDef) : b2Rope := (Create M0 d).getD (b2Rope.fresh d)

/-- The straight rope definition: vertices `(0,0)`, `(1,0)`, `(2,0)`, gravity `(0,-10)`. -/
def straightDef (masses : Nat → ℚ) (t : b2RopeTuning) : b2RopeDef :=
  exampleDef (fun i => ⟨i, 0⟩) masses ⟨0, -10⟩ t

/-- The straight rope: three particles of mass 1 at `(0,0)`, `(1,0)`, `(2,0)`. -/
def straightRope (t : b2RopeTuning) : b2Rope := ropeOf (straightDef (fun _ => 1) t)

/-- The definition of the rope that swings straight: vertices `(0,3/4)`, `(1,0)`, `(2,0)`,
the first particle pinned and the others of mass 1, gravity `(0,-1)`, and a tuning with
`bendStiffness = 0` and `bendHertz = 0`. -/
def swungDef (m : b2BendingModel) : b2RopeDef :=
  exampleDef (fun i => if i = 0 then ⟨0, 3 / 4⟩ else ⟨i, 0⟩)
    (fun i => if i = 0 then 0 else 1) ⟨0, -1⟩
    { exampleTuning m false with bendStiffness := 0, bendHertz := 0 }

/-- A bent rope: three particles of mass 1 at `(0,0)`, `(4,3)`, `(8,0)`, created in this
shape, so that both edges are at their rest length 5. -/
def bentRope (t : b2RopeTuning) : b2Rope :=
  ropeOf (exampleDef (fun i => if i = 0 then ⟨0, 0⟩ else if i = 1 then ⟨4, 3⟩ else ⟨8, 0⟩)
    (fun _ => 1) ⟨0, -10⟩ t)

/-- A rope whose first two particles coincide and are pinned, with the third, of mass 1, at
`(3, 4)`, under gravity `(3, 4)`, at the start of the constraint loop of a step of length
1: the third particle has moved to `(6, 8)`. -/
def zeroEdgeRope (t : b2RopeTuning) : b2Rope :=
  Step_predict M0 1 ⟨0, 0⟩
    (ropeOf (exampleDef (fun i => if i = 2 then ⟨3, 4⟩ else ⟨0, 0⟩)
      (fun i => if i = 2 then 1 else 0) ⟨3, 4⟩ t))

/-- A rope folded onto itself, vertices `(0,0)`, `(1,0)`, `(0,0)` with the outer particles
pinned and the middle one of mass 1, under gravity `(-1, 0)`, at the start of the constraint
loop of a step of length 1: the middle particle has moved to `(0, 0)`, so that the three
particles coincide. -/
def foldedRope (t : b2RopeTuning) : b2Rope :=
  Step_predict M0 1 ⟨0, 0⟩
    (ropeOf (exampleDef (fun i => if i = 1 then ⟨1, 0⟩ else ⟨0, 0⟩)
      (fun i => if i = 1 then 1 else 0) ⟨-1, 0⟩ t))

/-! ## The mass-weighted sum of the positions -/

/-- One term of the mass-weighted sum, added without rounding: `acc + x / w`, non-finite
when a value is non-finite or the inverse mass `w` is 0. -/
def massWeightedTerm (acc w x : Flt) : Flt :=
  match acc, w, x with
  | .fin a, .fin w, .fin x => if w = 0 then .nan else .fin (a + x / w)
  | _, _, _ => .nan

/-- The mass-weighted sum of the positions, `sum_i m_i * position[i]`, the mass of a dynamic
particle being `m_i = 1 / inverseMass[i]`; it is a quantity of the specification and is
computed without rounding. -/
def massWeightedSum (r : b2Rope) : b2Vec2 Flt :=
  forLoop r.m_count
    (fun i acc =>
      ⟨massWeightedTerm acc.x (r.m_invMasses i) (r.m_ps i).x,
        massWeightedTerm acc.y (r.m_invMasses i) (r.m_ps i).y⟩)
    b2Vec2.zero

/-- The definition of a rope of four particles of mass 1 at `(0,0)`, `(0,0)`, `(1,0)`,
`(1,1)`, without gravity: the first two vertices coincide, so that the first bend
constraint gets the effective inverse mass 0.  The tuning selects PBD-Angle with
`fixedEffectiveMass` on and `stretchStiffness = 0`. -/
def kinkDef : b2RopeDef :=
  { position := ⟨0, 0⟩
    vertices := fun i => if i ≤ 1 then ⟨0, 0⟩ else if i = 2 then ⟨1, 0⟩ else ⟨1, 1⟩
    count := 4
    masses := fun _ => 1
    gravity := ⟨0, 0⟩
    tuning :=
      { exampleTuning b2_pbdAngleBendingModel false with
        fixedEffectiveMass := true, stretchStiffness := 0 } }

/-- The rope of `kinkDef` in the second iteration of the constraint loop of a step of
length 1, after the first PBD-Angle pass (the stretch pass, with stiffness 0, changes
nothing): the second bend constraint has moved the second particle off the first one. -/
def kinkRope : b2Rope := SolveBend_PBD_Angle M0 (Step_predict M0 1 ⟨0, 0⟩ (ropeOf kinkDef))

/-- The definition of a straight rope at height 50: vertices `(0,50)`, `(1,50)`, `(2,50)`
of mass 1 under gravity `(0,-10)`. -/
def highDef : b2RopeDef :=
  exampleDef (fun i => ⟨i, 50⟩) (fun _ => 1) ⟨0, -10⟩
    (exampleTuning b2_pbdAngleBendingModel false)

/-- The straight rope of three particles of mass 1 at `(0,0)`, `(1,0)`, `(2,0)` with rest
lengths 1, in which the third particle has been pulled to `(9646899 / 4194304, 0)`, the
float nearest to `2.3`. -/
def pulledRope : b2Rope :=
  { straightRope (exampleTuning b2_pbdDistanceBendingModel false) with
    m_ps := Function.update (straightRope (exampleTuning b2_pbdDistanceBendingModel false)).m_ps
      2 ⟨Flt.fin (9646899 / 4194304), Flt.fin 0⟩ }

/-- The definition of a straight rope, vertices `(0,0)`, `(1,0)`, `(2,0)`, whose first
particle is pinned and whose other particles have mass 1, under the gravity `(2 ^ 64, 0)`. -/
def farDef (t : b2RopeTuning) : b2RopeDef :=
  exampleDef (fun i => ⟨i, 0⟩) (fun i => if i = 0 then 0 else 1) ⟨18446744073709551616, 0⟩ t

/-- The rope of `farDef` at the start of the constraint loop of a step of length 1: the
pinned particle is at `(0, 0)` and the two dynamic particles are at `(2 ^ 64, 0)`. -/
def farRope (t : b2RopeTuning) : b2Rope := Step_predict M0 1 ⟨0, 0⟩ (ropeOf (farDef t))

/-- A rope created at `(0,0)`, `(1,0)`, `(1,1)` with the outer particles pinned and the
middle one of mass 1, under gravity `(-1,0)`, at the start of the constraint loop of a step
of length 1: the middle particle has slid onto the first one, so that the first edge of the
bend triple has length zero while its rest length is 1.  The tuning has `bendHertz = 0`. -/
def slidRope (m : b2BendingModel) (isometric : Bool) : b2Rope :=
  Step_predict M0 1 ⟨0, 0⟩
    (ropeOf (exampleDef (fun i => if i = 0 then ⟨0, 0⟩ else if i = 1 then ⟨1, 0⟩ else ⟨1, 1⟩)
      (fun i => if i = 1 then 1 else 0) ⟨-1, 0⟩
      { exampleTuning m isometric with bendHertz := 0 }))

/-- A rope of three particles of mass 1 created at `(0,0)`, `(0,0)`, `(2 ^ 64, 0)`: its first
edge is zero and the squared length of its second edge overflows. -/
def zeroFarRope (t : b2RopeTuning) : b2Rope :=
  ropeOf (exampleDef (fun i => if i = 2 then ⟨18446744073709551616, 0⟩ else ⟨0, 0⟩)
    (fun _ => 1) ⟨0, -10⟩ t)

theorem forLoop_zero {σ : Type} (body : Nat → σ → σ) (s : σ) : forLoop 0 body s = s := rfl

theorem forLoop_succ {σ : Type} (n : Nat) (body : Nat → σ → σ) (s : σ) :
    forLoop (n + 1) body s = body n (forLoop n body s) := rfl

/-- A quantity that no pass of the body changes is the same after the loop. -/
theorem forLoop_keeps {σ α : Type} (f : σ → α) (body : Nat → σ → σ) (n : Nat) (s : σ)
    (h : ∀ i s, f (body i s) = f s) : f (forLoop n body s) = f s := by
  induction n with
  | zero => rfl
  | succ k ih => rw [forLoop_succ, h, ih]

/-- A loop whose passes all leave the state as it is leaves the state as it is. -/
theorem forLoop_eq_self {σ : Type} (body : Nat → σ → σ) (n : Nat) (s : σ)
    (h : ∀ i, i < n → body i s = s) : forLoop n body s = s := by
  induction n with
  | zero => rfl
  | succ k ih =>
    rw [forLoop_succ, ih (fun i hi => h i (Nat.lt_succ_of_lt hi)), h k (Nat.lt_succ_self k)]

/-! ## The loops that write one entry per pass -/

theorem forLoop_Reset_particle (n : Nat) (r : b2Rope) :
    forLoop n Reset_particle r =
      { r with
        m_ps := fun i => if i < n then ((r.m_bindPositions i).toFlt + r.m_position.toFlt) else r.m_ps i
        m_p0s := fun i => if i < n then ((r.m_bindPositions i).toFlt + r.m_position.toFlt) else r.m_p0s i
        m_vs := fun i => if i < n then b2Vec2.zero else r.m_vs i } := by
  induction n with
  | zero => simp [forLoop]
  | succ k ih =>
    rw [forLoop_succ, ih]
    simp only [Reset_particle]
    congr 1 <;> funext i <;> simp only [Function.update_apply] <;> split_ifs <;>
      first | rfl | (exfalso; omega) | (subst_vars; rfl)

theorem forLoop_clearLambda (n : Nat) (r : b2Rope) :
    forLoop n clearLambda r =
      { r with
        m_bendConstraints := fun i =>
          if i < n then { r.m_bendConstraints i with lambda := Flt.fin 0 }
          else r.m_bendConstraints i } := by
  induction n with
  | zero => simp [forLoop]
  | succ k ih =>
    rw [forLoop_succ, ih]
    simp only [clearLambda]
    congr 1
    funext i
    simp only [Function.update_apply]
    split_ifs <;> first | rfl | (exfalso; omega) | (subst_vars; rfl)

theorem forLoop_Create_particle (d : b2RopeDef) (n : Nat) (r : b2Rope) :
    forLoop n (Create_particle d) r =
      { r with
        m_bindPositions := fun i => if i < n then d.vertices i else r.m_bindPositions i
        m_ps := fun i => if i < n then ((d.vertices i).toFlt + r.m_position.toFlt) else r.m_ps i
        m_p0s := fun i => if i < n then ((d.vertices i).toFlt + r.m_position.toFlt) else r.m_p0s i
        m_vs := fun i => if i < n then b2Vec2.zero else r.m_vs i
        m_invMasses := fun i =>
          if i < n then (if 0 < d.masses i then Flt.fin 1 / Flt.fin (d.masses i) else Flt.fin 0)
          else r.m_invMasses i } := by
  induction n with
  | zero => simp [forLoop]
  | succ k ih =>
    rw [forLoop_succ, ih]
    simp only [Create_particle]
    congr 1 <;> funext i <;> simp only [Function.update_apply] <;> split_ifs <;>
      first | rfl | (exfalso; omega) | (subst_vars; rfl) | (subst_vars; simp_all)

theorem forLoop_Create_stretch (M : b2Math) (n : Nat) (r : b2Rope) :
    forLoop n (Create_stretch M) r =
      { r with
        m_stretchConstraints := fun i =>
          if i < n then
            { i1 := i
              i2 := i + 1
              L := b2Distance M (r.m_ps i) (r.m_ps (i + 1))
              invMass1 := r.m_invMasses i
              invMass2 := r.m_invMasses (i + 1) }
          else r.m_stretchConstraints i } := by
  induction n with
  | zero => simp [forLoop]
  | succ k ih =>
    rw [forLoop_succ, ih]
    simp only [Create_stretch]
    congr 1
    funext i
    simp only [Function.update_apply]
    split_ifs <;> first | rfl | (exfalso; omega) | (subst_vars; rfl)

theorem forLoop_Create_bend (M : b2Math) (n : Nat) (r : b2Rope) :
    forLoop n (Create_bend M) r =
      { r with
        m_bendConstraints := fun i =>
          if i < n then
            { i1 := i
              i2 := i + 1
              i3 := i + 2
              invMass1 := r.m_invMasses i
              invMass2 := r.m_invMasses (i + 1)
              invMass3 := r.m_invMasses (i + 2)
              invEffectiveMass :=
                Create_invEffectiveMass (r.m_invMasses i) (r.m_invMasses (i + 1))
                  (r.m_invMasses (i + 2)) (r.m_ps i) (r.m_ps (i + 1)) (r.m_ps (i + 2))
              L1 := b2Distance M (r.m_ps i) (r.m_ps (i + 1))
              L2 := b2Distance M (r.m_ps (i + 1)) (r.m_ps (i + 2))
              lambda := Flt.fin 0 }
          else r.m_bendConstraints i } := by
  induction n with
  | zero => simp [forLoop]
  | succ k ih =>
    rw [forLoop_succ, ih]
    simp only [Create_bend]
    congr 1
    funext i
    simp only [Function.update_apply]
    split_ifs <;> first | rfl | (exfalso; omega) | (subst_vars; rfl)

theorem forLoop_Step_updatePosition (dt : ℚ) (n : Nat) (r : b2Rope) :
    forLoop n (Step_updatePosition dt) r =
      { r with
        m_ps := fun i => if i < n then r.m_ps i + Flt.fin dt • r.m_vs i else r.m_ps i } := by
  induction n with
  | zero => simp [forLoop]
  | succ k ih =>
    rw [forLoop_succ, ih]
    simp only [Step_updatePosition]
    congr 1
    funext i
    simp only [Function.update_apply]
    split_ifs <;> first | rfl | (exfalso; omega) | (subst_vars; rfl)

theorem forLoop_Step_constrainVelocity (dt : ℚ) (n : Nat) (r : b2Rope) :
    forLoop n (Step_constrainVelocity dt) r =
      { r with
        m_vs := fun i =>
          if i < n then (Flt.fin 1 / Flt.fin dt) • (r.m_ps i - r.m_p0s i) else r.m_vs i
        m_p0s := fun i => if i < n then r.m_ps i else r.m_p0s i } := by
  induction n with
  | zero => simp [forLoop]
  | succ k ih =>
    rw [forLoop_succ, ih]
    simp only [Step_constrainVelocity]
    congr 1 <;> funext i <;> simp only [Function.update_apply] <;> split_ifs <;>
      first | rfl | (exfalso; omega) | (subst_vars; rfl)

theorem forLoop_Step_integrate (M : b2Math) (dt : ℚ) (position : b2Vec2 ℚ) (n : Nat)
    (r : b2Rope) :
    forLoop n (Step_integrate M dt position) r =
      { r with
        m_vs := fun i =>
          if i < n then
            (if (Flt.fin 0).blt (r.m_invMasses i) then
              (r.m_vs i + Flt.fin dt • r.m_gravity.toFlt).mulAssign
                (M.expf (-Flt.fin dt * Flt.fin r.m_tuning.damping))
            else (Flt.fin 1 / Flt.fin dt) •
              ((r.m_bindPositions i).toFlt + position.toFlt - r.m_p0s i))
          else r.m_vs i } := by
  induction n with
  | zero => simp [forLoop]
  | succ k ih =>
    rw [forLoop_succ, ih]
    simp only [Step_integrate]
    split_ifs <;>
    congr 1 <;> funext i <;> simp only [Function.update_apply] <;> split_ifs <;>
      first | rfl | (exfalso; omega) | (subst_vars; simp_all)

/-! ## What the passes leave alone -/

theorem fixedPart_update_lambda (r : b2Rope) (i : Nat) (l : Flt) (ps vs : Nat → b2Vec2 Flt) :
    b2Rope.fixedPart
      { r with
        m_ps := ps
        m_vs := vs
        m_bendConstraints := Function.update r.m_bendConstraints i
          { r.m_bendConstraints i with lambda := l } } = r.fixedPart := by
  simp only [b2Rope.fixedPart, b2RopeFixed.mk.injEq, true_and, and_true]
  funext j
  by_cases h : j = i
  · subst h; simp
  · simp [Function.update_noteq h]

theorem SolveStretch_body_kept (M : b2Math) (i : Nat) (r : b2Rope) :
    (SolveStretch_body M i r).kept = r.kept := by
  unfold SolveStretch_body
  simp only []
  split_ifs <;> rfl

theorem SolveBend_PBD_Angle_body_kept (M : b2Math) (i : Nat) (r : b2Rope) :
    (SolveBend_PBD_Angle_body M i r).kept = r.kept := by
  unfold SolveBend_PBD_Angle_body
  simp only []
  split_ifs <;> rfl

theorem SolveBend_PBD_Distance_body_kept (M : b2Math) (i : Nat) (r : b2Rope) :
    (SolveBend_PBD_Distance_body M i r).kept = r.kept := by
  unfold SolveBend_PBD_Distance_body
  simp only []
  split_ifs <;> rfl

theorem SolveBend_PBD_Height_body_kept (M : b2Math) (i : Nat) (r : b2Rope) :
    (SolveBend_PBD_Height_body M i r).kept = r.kept := by
  unfold SolveBend_PBD_Height_body
  simp only []
  split_ifs <;> rfl

theorem ApplyBendForces_body_kept (M : b2Math) (dt : ℚ) (i : Nat) (r : b2Rope) :
    (ApplyBendForces_body M dt i r).kept = r.kept := by
  unfold ApplyBendForces_body
  simp only []
  split_ifs <;> rfl

theorem Step_warmStart_kept (i : Nat) (r : b2Rope) : (Step_warmStart i r).kept = r.kept := by
  unfold Step_warmStart
  simp only []
  split_ifs <;> rfl

theorem SolveBend_XPBD_Angle_body_kept (M : b2Math) (dt : ℚ) (i : Nat) (r : b2Rope) :
    (SolveBend_XPBD_Angle_body M dt i r).kept = r.kept := by
  unfold SolveBend_XPBD_Angle_body
  simp only []
  split_ifs <;> first | rfl | (simp only [b2Rope.kept, fixedPart_update_lambda])

theorem SolveBend_Soft_Angle_body_kept (M : b2Math) (dt : ℚ) (i : Nat) (r : b2Rope) :
    (SolveBend_Soft_Angle_body M dt i r).kept = r.kept := by
  unfold SolveBend_Soft_Angle_body
  simp only []
  split_ifs <;> first | rfl | (simp only [b2Rope.kept, fixedPart_update_lambda])

theorem clearLambda_kept (i : Nat) (r : b2Rope) : (clearLambda i r).kept = r.kept := by
  unfold clearLambda
  simp only [b2Rope.kept, b2Rope.fixedPart, Prod.mk.injEq, b2RopeFixed.mk.injEq, true_and,
    and_true]
  funext j
  by_cases h : j = i
  · subst h; simp
  · simp [Function.update_noteq h]

theorem Step_integrate_kept (M : b2Math) (dt : ℚ) (a : b2Vec2 ℚ) (i : Nat) (r : b2Rope) :
    (Step_integrate M dt a i r).kept = r.kept := by
  unfold Step_integrate
  simp only []
  split_ifs <;> rfl

theorem Step_updatePosition_kept (dt : ℚ) (i : Nat) (r : b2Rope) :
    (Step_updatePosition dt i r).kept = r.kept := rfl

theorem SolveStretch_kept (M : b2Math) (r : b2Rope) : (SolveStretch M r).kept = r.kept :=
  forLoop_keeps b2Rope.kept _ _ r (SolveStretch_body_kept M)

theorem Step_solve_kept (M : b2Math) (dt : ℚ) (r r' : b2Rope) (h : Step_solve M dt r = some r') :
    r'.kept = r.kept := by
  unfold Step_solve Step_bend at h
  simp only [SolveBend_XPBD_Angle, SolveBend_Soft_Angle] at h
  split_ifs at h <;> simp only [Option.map_some', Option.some.injEq, Option.map_none',
    reduceCtorEq] at h <;> subst h <;> rw [SolveStretch_kept]
  · exact forLoop_keeps b2Rope.kept _ _ r (SolveBend_PBD_Angle_body_kept M)
  · exact forLoop_keeps b2Rope.kept _ _ r (SolveBend_XPBD_Angle_body_kept M dt)
  · exact forLoop_keeps b2Rope.kept _ _ r (SolveBend_Soft_Angle_body_kept M dt)
  · exact forLoop_keeps b2Rope.kept _ _ r (SolveBend_PBD_Distance_body_kept M)
  · exact forLoop_keeps b2Rope.kept _ _ r (SolveBend_PBD_Height_body_kept M)

theorem Step_iterate_kept (M : b2Math) (dt : ℚ) (n : Nat) (r r' : b2Rope)
    (h : Step_iterate M dt n r = some r') : r'.kept = r.kept := by
  induction n generalizing r' with
  | zero => simp only [Step_iterate, Option.some.injEq] at h; subst h; rfl
  | succ k ih =>
    simp only [Step_iterate, Option.bind_eq_some] at h
    obtain ⟨r1, h1, h2⟩ := h
    rw [Step_solve_kept M dt r1 r' h2, ih r1 h1]

theorem Step_predict_kept (M : b2Math) (dt : ℚ) (a : b2Vec2 ℚ) (r : b2Rope) :
    (Step_predict M dt a r).kept = r.kept := by
  unfold Step_predict
  simp only []
  rw [forLoop_keeps b2Rope.kept _ _ _ (Step_updatePosition_kept dt)]
  have h1 := forLoop_keeps b2Rope.kept _ r.m_count r (Step_integrate_kept M dt a)
  split_ifs
  · rw [forLoop_keeps b2Rope.kept _ _ _ Step_warmStart_kept, ApplyBendForces,
      forLoop_keeps b2Rope.kept _ _ _ (ApplyBendForces_body_kept M dt), h1]
  · rw [forLoop_keeps b2Rope.kept _ _ _ clearLambda_kept, ApplyBendForces,
      forLoop_keeps b2Rope.kept _ _ _ (ApplyBendForces_body_kept M dt), h1]
  · rw [forLoop_keeps b2Rope.kept _ _ _ Step_warmStart_kept, h1]
  · rw [forLoop_keeps b2Rope.kept _ _ _ clearLambda_kept, h1]

theorem kept_bendCount (s r : b2Rope) (h : s.kept = r.kept) : s.m_bendCount = r.m_bendCount :=
  congrArg (fun x => x.1.bendCount) h

theorem kept_count (s r : b2Rope) (h : s.kept = r.kept) : s.m_count = r.m_count :=
  congrArg (fun x => x.1.count) h

theorem kept_tuning (s r : b2Rope) (h : s.kept = r.kept) : s.m_tuning = r.m_tuning :=
  congrArg (fun x => x.2.1) h

theorem kept_p0s (s r : b2Rope) (h : s.kept = r.kept) : s.m_p0s = r.m_p0s :=
  congrArg (fun x => x.2.2.2) h

/-- The loop "solve constraints" completes when the assertions of the bend passes hold. -/
theorem Step_iterate_runs (M : b2Math) (dt : ℚ) (n : Nat) (r : b2Rope)
    (h : 0 < dt ∨ n = 0 ∨ (r.m_tuning.bendingModel ≠ b2_xpbdAngleBendingModel ∧
      r.m_tuning.bendingModel ≠ b2_softAngleBendingModel)) :
    ∃ r', Step_iterate M dt n r = some r' := by
  induction n with
  | zero => exact ⟨r, rfl⟩
  | succ k ih =>
    have hk : 0 < dt ∨ (r.m_tuning.bendingModel ≠ b2_xpbdAngleBendingModel ∧
        r.m_tuning.bendingModel ≠ b2_softAngleBendingModel) := by
      rcases h with h | h | h
      · exact Or.inl h
      · exact absurd h (Nat.succ_ne_zero k)
      · exact Or.inr h
    obtain ⟨r1, h1⟩ := ih (hk.elim Or.inl (fun h => Or.inr (Or.inr h)))
    have ht : r1.m_tuning = r.m_tuning := by
      have := Step_iterate_kept M dt k r r1 h1
      exact congrArg (fun x => x.2.1) this
    simp only [Step_iterate, h1, Option.some_bind, Step_solve, Step_bend, SolveBend_XPBD_Angle,
      SolveBend_Soft_Angle, ht]
    rcases hk with hk | ⟨hx, hs⟩
    · simp only [hk, if_true]
      split_ifs <;> simp
    · simp only [hx, hs, if_false]
      split_ifs <;> simp

/-! ## Step and Reset as a whole -/

/-- A `Step` with a time step other than 0 is the prediction, the constraint loop and the
velocity loop. -/
theorem Step_eq_some (M : b2Math) (dt : ℚ) (iterations : Int) (a : b2Vec2 ℚ) (r r' : b2Rope)
    (hdt : dt ≠ 0) (h : Step M dt iterations a r = some r') :
    ∃ r5, Step_iterate M dt iterations.toNat (Step_predict M dt a r) = some r5 ∧
      r5.kept = r.kept ∧
      r' = { r5 with
              m_vs := fun i =>
                if i < r.m_count then (Flt.fin 1 / Flt.fin dt) • (r5.m_ps i - r.m_p0s i)
                else r5.m_vs i
              m_p0s := fun i => if i < r.m_count then r5.m_ps i else r.m_p0s i } := by
  simp only [Step, hdt, if_false, Option.map_eq_some'] at h
  obtain ⟨r5, h5, hr'⟩ := h
  have hk : r5.kept = r.kept := by
    rw [Step_iterate_kept M dt _ _ r5 h5, Step_predict_kept]
  refine ⟨r5, h5, hk, ?_⟩
  have hc : r5.m_count = r.m_count := congrArg (fun x => x.1.count) hk
  have hp : r5.m_p0s = r.m_p0s := congrArg (fun x => x.2.2.2) hk
  rw [← hr', forLoop_Step_constrainVelocity, hc, hp]

/-- A `Step` completes when the assertions of the bend passes hold. -/
theorem Step_runs_some (M : b2Math) (dt : ℚ) (iterations : Int) (a : b2Vec2 ℚ) (r : b2Rope)
    (hrun : Step_runs dt iterations r.m_tuning) :
    ∃ r', Step M dt iterations a r = some r' := by
  by_cases hdt : dt = 0
  · exact ⟨r, by simp [Step, hdt]⟩
  · have ht : (Step_predict M dt a r).m_tuning = r.m_tuning :=
      congrArg (fun x => x.2.1) (Step_predict_kept M dt a r)
    have hrun' : 0 < dt ∨ iterations.toNat = 0 ∨
        ((Step_predict M dt a r).m_tuning.bendingModel ≠ b2_xpbdAngleBendingModel ∧
          (Step_predict M dt a r).m_tuning.bendingModel ≠ b2_softAngleBendingModel) := by
      rw [ht]
      rcases hrun with h | h | h
      · exact Or.inl h
      · exact Or.inr (Or.inl (Int.toNat_eq_zero.mpr h))
      · exact Or.inr (Or.inr h)
    obtain ⟨r5, h5⟩ := Step_iterate_runs M dt iterations.toNat _ hrun'
    exact ⟨forLoop r5.m_count (Step_constrainVelocity dt) r5,
      by simp only [Step, hdt, if_false, h5, Option.map_some']⟩

/-- No `Step` writes the fixed data, the tuning or the anchor. -/
theorem Step_fixedPart (M : b2Math) (dt : ℚ) (iterations : Int) (a : b2Vec2 ℚ) (r r' : b2Rope)
    (h : Step M dt iterations a r = some r') :
    r'.fixedPart = r.fixedPart ∧ r'.m_tuning = r.m_tuning ∧ r'.m_position = r.m_position := by
  by_cases hdt : dt = 0
  · simp only [Step, hdt, if_true, Option.some.injEq] at h
    subst h
    exact ⟨rfl, rfl, rfl⟩
  · obtain ⟨r5, _, hk, hr'⟩ := Step_eq_some M dt iterations a r r' hdt h
    subst hr'
    exact ⟨congrArg (fun x => x.1) hk, congrArg (fun x => x.2.1) hk,
      congrArg (fun x => x.2.2.1) hk⟩

/-- The rope after `Reset`. -/
theorem Reset_eq (a : b2Vec2 ℚ) (r : b2Rope) :
    Reset a r =
      { r with
        m_position := a
        m_ps := fun i => if i < r.m_count then ((r.m_bindPositions i).toFlt + a.toFlt) else r.m_ps i
        m_p0s := fun i => if i < r.m_count then ((r.m_bindPositions i).toFlt + a.toFlt) else r.m_p0s i
        m_vs := fun i => if i < r.m_count then b2Vec2.zero else r.m_vs i
        m_bendConstraints := fun i =>
          if i < r.m_bendCount then { r.m_bendConstraints i with lambda := Flt.fin 0 }
          else r.m_bendConstraints i } := by
  simp only [Reset, forLoop_Reset_particle, forLoop_clearLambda]

theorem Reset_fixedPart (a : b2Vec2 ℚ) (r : b2Rope) : (Reset a r).fixedPart = r.fixedPart := by
  rw [Reset_eq]
  simp only [b2Rope.fixedPart, b2RopeFixed.mk.injEq, true_and, and_true]
  funext j
  split_ifs <;> rfl

/-- The rope that `Create` builds. -/
theorem Create_eq (M : b2Math) (d : b2RopeDef) (h3 : 3 ≤ d.count) :
    Create M d = some
      { m_position := d.position
        m_count := d.count
        m_stretchCount := d.count - 1
        m_bendCount := d.count - 2
        m_stretchConstraints := fun i =>
          if i < d.count - 1 then
            { i1 := i
              i2 := i + 1
              L := b2Distance M (Create_position d i) (Create_position d (i + 1))
              invMass1 := Create_invMass d i
              invMass2 := Create_invMass d (i + 1) }
          else ⟨0, 0, Flt.fin 0, Flt.fin 0, Flt.fin 0⟩
        m_bendConstraints := fun i =>
          if i < d.count - 2 then
            { i1 := i
              i2 := i + 1
              i3 := i + 2
              invMass1 := Create_invMass d i
              invMass2 := Create_invMass d (i + 1)
              invMass3 := Create_invMass d (i + 2)
              invEffectiveMass :=
                Create_invEffectiveMass (Create_invMass d i) (Create_invMass d (i + 1))
                  (Create_invMass d (i + 2)) (Create_position d i) (Create_position d (i + 1))
                  (Create_position d (i + 2))
              L1 := b2Distance M (Create_position d i) (Create_position d (i + 1))
              L2 := b2Distance M (Create_position d (i + 1)) (Create_position d (i + 2))
              lambda := Flt.fin 0 }
          else ⟨0, 0, 0, Flt.fin 0, Flt.fin 0, Flt.fin 0, Flt.fin 0, Flt.fin 0, Flt.fin 0,
            Flt.fin 0⟩
        m_bindPositions := fun i => if i < d.count then d.vertices i else ⟨0, 0⟩
        m_ps := Create_position d
        m_p0s := Create_position d
        m_vs := fun _ => b2Vec2.zero
        m_invMasses := Create_invMass d
        m_gravity := d.gravity
        m_tuning := d.tuning } := by
  have h : ¬ d.count < 3 := by omega
  simp only [Create, h, if_false, forLoop_Create_particle, forLoop_Create_stretch,
    forLoop_Create_bend, b2Rope.fresh, Option.some.injEq]
  congr 1
  funext i
  split_ifs <;> rfl

/-! ## Float arithmetic -/

@[simp] theorem Flt_nan_add (x : Flt) : Flt.nan + x = Flt.nan := rfl
@[simp] theorem Flt_nan_sub (x : Flt) : Flt.nan - x = Flt.nan := rfl
@[simp] theorem Flt_neg_fin (a : ℚ) : -Flt.fin a = Flt.fin (-a) := rfl
@[simp] theorem Flt_neg_nan : -Flt.nan = Flt.nan := rfl
@[simp] theorem Flt_nan_div (x : Flt) : Flt.nan / x = Flt.nan := rfl
@[simp] theorem Flt_div_nan (x : Flt) : x / Flt.nan = Flt.nan := by cases x <;> rfl
@[simp] theorem Flt_blt_fin (a b : ℚ) : (Flt.fin a).blt (Flt.fin b) = decide (a < b) := rfl
@[simp] theorem Flt_blt_nan_left (x : Flt) : Flt.nan.blt x = false := rfl
@[simp] theorem Flt_blt_nan_right (x : Flt) : x.blt Flt.nan = false := by cases x <;> rfl

/-- The sum of two finite floats. -/
theorem Flt_fin_add (a b : ℚ) :
    Flt.fin a + Flt.fin b =
      if b = 0 then Flt.fin a else if a = 0 then Flt.fin b else Flt.round (a + b) := rfl

/-- The difference of two finite floats. -/
theorem Flt_fin_sub (a b : ℚ) :
    Flt.fin a - Flt.fin b = if b = 0 then Flt.fin a else Flt.round (a - b) := rfl

/-- The product of two finite floats. -/
theorem Flt_fin_mul (a b : ℚ) :
    Flt.fin a * Flt.fin b =
      if a = 1 then Flt.fin b else if b = 1 then Flt.fin a else Flt.round (a * b) := rfl

/-- The quotient of two finite floats. -/
theorem Flt_fin_div (a b : ℚ) :
    Flt.fin a / Flt.fin b =
      if b = 0 then (if a = 0 then Flt.nan else Flt.inf (decide (a < 0)))
      else if b = 1 then Flt.fin a else Flt.round (a / b) := rfl

/-- Zero rounds to zero. -/
theorem Flt_round_zero : Flt.round 0 = Flt.fin 0 := by decide!

/-- One rounds to one. -/
theorem Flt_round_one : Flt.round 1 = Flt.fin 1 := by decide!

/-- Adding zero changes nothing. -/
@[simp] theorem Flt_add_zero (x : Flt) : x + Flt.fin 0 = x := by
  cases x with
  | nan => rfl
  | inf s => rfl
  | fin a => rw [Flt_fin_add, if_pos rfl]

/-- Adding to zero changes nothing. -/
@[simp] theorem Flt_zero_add (x : Flt) : Flt.fin 0 + x = x := by
  cases x with
  | nan => rfl
  | inf s => rfl
  | fin b =>
    rw [Flt_fin_add]
    split_ifs with h h0
    · rw [h]
    · rfl
    · exact absurd rfl h0

/-- Subtracting zero changes nothing. -/
@[simp] theorem Flt_sub_zero (x : Flt) : x - Flt.fin 0 = x := by
  cases x with
  | nan => rfl
  | inf s => rfl
  | fin a => rw [Flt_fin_sub, if_pos rfl]

/-- A finite float minus itself is zero. -/
theorem Flt_sub_self (a : ℚ) : Flt.fin a - Flt.fin a = Flt.fin 0 := by
  rw [Flt_fin_sub]
  split_ifs with h
  · rw [h]
  · rw [sub_self, Flt_round_zero]

/-- Zero times a finite float is zero. -/
@[simp] theorem Flt_zero_mul_fin (b : ℚ) : Flt.fin 0 * Flt.fin b = Flt.fin 0 := by
  rw [Flt_fin_mul]
  split_ifs with h1 h2
  · exact absurd h1 (by norm_num)
  · rfl
  · rw [zero_mul, Flt_round_zero]

/-- A finite float times zero is zero. -/
@[simp] theorem Flt_fin_mul_zero (a : ℚ) : Flt.fin a * Flt.fin 0 = Flt.fin 0 := by
  rw [Flt_fin_mul]
  split_ifs with h1 h2
  · rfl
  · exact absurd h2 (by norm_num)
  · rw [mul_zero, Flt_round_zero]

/-- One times a float is the float. -/
@[simp] theorem Flt_one_mul (x : Flt) : Flt.fin 1 * x = x := by
  cases x with
  | nan => rfl
  | inf s => cases s <;> decide
  | fin b => rw [Flt_fin_mul, if_pos rfl]

/-- A float times one is the float. -/
@[simp] theorem Flt_mul_one (x : Flt) : x * Flt.fin 1 = x := by
  cases x with
  | nan => rfl
  | inf s => cases s <;> decide
  | fin a =>
    rw [Flt_fin_mul]
    split_ifs with h h1
    · rw [h]
    · rfl
    · exact absurd rfl h1

/-- Zero divided by a finite float other than zero is zero. -/
theorem Flt_zero_div (b : ℚ) (hb : b ≠ 0) : Flt.fin 0 / Flt.fin b = Flt.fin 0 := by
  rw [Flt_fin_div, if_neg hb]
  split_ifs
  · rfl
  · rw [zero_div, Flt_round_zero]

/-- A finite float other than zero divided by itself is one. -/
theorem Flt_div_self (a : ℚ) (ha : a ≠ 0) : Flt.fin a / Flt.fin a = Flt.fin 1 := by
  rw [Flt_fin_div, if_neg ha]
  split_ifs with h
  · rw [h]
  · rw [div_self ha, Flt_round_one]

@[simp] theorem b2Vec2_add_x {α : Type} [Add α] (a b : b2Vec2 α) : (a + b).x = a.x + b.x := rfl
@[simp] theorem b2Vec2_add_y {α : Type} [Add α] (a b : b2Vec2 α) : (a + b).y = a.y + b.y := rfl
@[simp] theorem b2Vec2_sub_x {α : Type} [Sub α] (a b : b2Vec2 α) : (a - b).x = a.x - b.x := rfl
@[simp] theorem b2Vec2_sub_y {α : Type} [Sub α] (a b : b2Vec2 α) : (a - b).y = a.y - b.y := rfl
@[simp] theorem b2Vec2_neg_x {α : Type} [Neg α] (a : b2Vec2 α) : (-a).x = -a.x := rfl
@[simp] theorem b2Vec2_neg_y {α : Type} [Neg α] (a : b2Vec2 α) : (-a).y = -a.y := rfl
@[simp] theorem b2Vec2_smul_x {α : Type} [Mul α] (s : α) (a : b2Vec2 α) :
    (s • a).x = s * a.x := rfl
@[simp] theorem b2Vec2_smul_y {α : Type} [Mul α] (s : α) (a : b2Vec2 α) :
    (s • a).y = s * a.y := rfl
@[simp] theorem b2Vec2_toFlt_x (a : b2Vec2 ℚ) : a.toFlt.x = Flt.fin a.x := rfl
@[simp] theorem b2Vec2_toFlt_y (a : b2Vec2 ℚ) : a.toFlt.y = Flt.fin a.y := rfl
@[simp] theorem b2Vec2_zero_x : b2Vec2.zero.x = Flt.fin 0 := rfl
@[simp] theorem b2Vec2_zero_y : b2Vec2.zero.y = Flt.fin 0 := rfl

/-- A bend pass that asserts `dt > 0` fails when `dt` is not positive. -/
theorem Step_solve_none (M : b2Math) (dt : ℚ) (r : b2Rope) (hdt : ¬ 0 < dt)
    (hm : r.m_tuning.bendingModel = b2_xpbdAngleBendingModel ∨
      r.m_tuning.bendingModel = b2_softAngleBendingModel) :
    Step_solve M dt r = none := by
  unfold Step_solve Step_bend
  rcases hm with hm | hm <;>
    simp [hm, SolveBend_XPBD_Angle, SolveBend_Soft_Angle, hdt]

/-- A `Step` with `dt ≠ 0` that completes has passed the assertions of the bend passes. -/
theorem Step_some_runs (M : b2Math) (dt : ℚ) (iterations : Int) (a : b2Vec2 ℚ) (r r' : b2Rope)
    (hdt : dt ≠ 0) (h : Step M dt iterations a r = some r') :
    Step_runs dt iterations r.m_tuning := by
  by_contra hnot
  simp only [Step_runs, not_or, not_and_or, not_not, not_le] at hnot
  obtain ⟨hpos, hit, hm⟩ := hnot
  obtain ⟨r5, h5, _, _⟩ := Step_eq_some M dt iterations a r r' hdt h
  obtain ⟨k, hk⟩ : ∃ k, iterations.toNat = k + 1 := by
    have : 0 < iterations.toNat := by omega
    exact ⟨iterations.toNat - 1, by omega⟩
  rw [hk] at h5
  simp only [Step_iterate, Option.bind_eq_some] at h5
  obtain ⟨r1, h1, h2⟩ := h5
  have ht : r1.m_tuning = r.m_tuning := by
    rw [kept_tuning r1 _ (Step_iterate_kept M dt k _ r1 h1),
      kept_tuning _ r (Step_predict_kept M dt a r)]
  rw [Step_solve_none M dt r1 hpos (by rw [ht]; exact hm)] at h2
  cases h2

/-! ## Time step zero, Reset, and the velocity after a step -/

/-- C1: `Step` with `dt = 0` returns the state unchanged, for every rope state (and so
every tuning), iteration count and anchor argument: every position, previous position,
velocity and multiplier is what it was. -/
theorem Step_dt_zero (M : b2Math) (iterations : Int) (position : b2Vec2 ℚ) (r : b2Rope) :
    Step M 0 iterations position r = some r := by
  simp [Step]

/-- C4: for every rope state and anchor `a`, `Reset a` followed by a `Step` with `dt = 0`
(any iteration count and anchor argument) leaves every particle at its bind position plus
`a` (the float sum that `Reset` computes), with the previous position at the same point,
velocity zero, and every bend multiplier 0. -/
theorem Reset_then_Step_zero (M : b2Math) (r : b2Rope) (a b : b2Vec2 ℚ) (iterations : Int) :
    ∃ r', Step M 0 iterations b (Reset a r) = some r' ∧
      (∀ i, i < r'.m_count →
        r'.m_ps i = (r'.m_bindPositions i).toFlt + a.toFlt ∧
        r'.m_p0s i = (r'.m_bindPositions i).toFlt + a.toFlt ∧
        r'.m_vs i = b2Vec2.zero) ∧
      (∀ i, i < r'.m_bendCount → (r'.m_bendConstraints i).lambda = Flt.fin 0) ∧
      r'.m_count = r.m_count ∧ r'.m_bendCount = r.m_bendCount ∧
      r'.m_bindPositions = r.m_bindPositions := by
  refine ⟨Reset a r, by simp [Step], ?_, ?_, ?_, ?_, ?_⟩ <;> rw [Reset_eq]
  · intro i hi
    have hi' : i < r.m_count := hi
    simp only [hi', if_true, and_self]
  · intro i hi
    have hi' : i < r.m_bendCount := hi
    simp only [hi', if_true]

/-- C9 (amended): a `Step` with `dt ≠ 0` completes exactly when the assertions of the bend
passes hold (`dt > 0`, or no iteration, or a bending model other than XPBD-Angle and
Soft-Angle), and whenever it completes, afterwards, for every particle `i`, the velocity is
the position after the step minus the previous position before it, times the reciprocal
`1 / dt` that the code computes, and the previous position is the position after the
step. -/
theorem Step_constrains_velocity (M : b2Math) (dt : ℚ) (iterations : Int) (a : b2Vec2 ℚ)
    (r : b2Rope) (hdt : dt ≠ 0) :
    ((∃ r', Step M dt iterations a r = some r') ↔ Step_runs dt iterations r.m_tuning) ∧
    ∀ r', Step M dt iterations a r = some r' →
      ∀ i, i < r.m_count →
        r'.m_vs i = (Flt.fin 1 / Flt.fin dt) • (r'.m_ps i - r.m_p0s i) ∧
        r'.m_p0s i = r'.m_ps i := by
  refine ⟨⟨fun ⟨r', h⟩ => Step_some_runs M dt iterations a r r' hdt h,
    Step_runs_some M dt iterations a r⟩, ?_⟩
  intro r' h
  obtain ⟨r5, _, _, hr'⟩ := Step_eq_some M dt iterations a r r' hdt h
  subst hr'
  intro i hi
  simp only [hi, if_true, and_self]

/-- C9, witness: a step of length 1 with one PBD-Angle iteration on the straight rope. -/
theorem Step_constrains_velocity_witness :
    (1 : ℚ) ≠ 0 ∧
    (((∃ r', Step M0 1 1 ⟨0, 0⟩ (straightRope (exampleTuning b2_pbdAngleBendingModel false))
        = some r') ↔
      Step_runs 1 1 (straightRope (exampleTuning b2_pbdAngleBendingModel false)).m_tuning) ∧
    ∀ r', Step M0 1 1 ⟨0, 0⟩ (straightRope (exampleTuning b2_pbdAngleBendingModel false))
        = some r' →
      ∀ i, i < (straightRope (exampleTuning b2_pbdAngleBendingModel false)).m_count →
        r'.m_vs i = (Flt.fin 1 / Flt.fin 1) • (r'.m_ps i -
          (straightRope (exampleTuning b2_pbdAngleBendingModel false)).m_p0s i) ∧
        r'.m_p0s i = r'.m_ps i) :=
  ⟨one_ne_zero, Step_constrains_velocity M0 1 1 ⟨0, 0⟩ _ one_ne_zero⟩

/-- C9, counterexample: on the straight rope with the XPBD-Angle model, a `Step` with
`dt = -1` and one iteration fails the assertion `dt > 0` of the bend pass, so that it has
no state afterwards. -/
theorem Step_negative_dt_fails :
    (Create M0 (straightDef (fun _ => 1) (exampleTuning b2_xpbdAngleBendingModel false))).map
      (fun r => (Step M0 (-1) 1 ⟨0, 0⟩ r).isSome) = some false := by
  decide!

/-! ## Reachable states -/

/-- Every reachable state has the fixed data of the rope that `Create` built. -/
theorem Reachable_fixedPart (M : b2Math) (d : b2RopeDef) (r0 r : b2Rope)
    (h0 : Create M d = some r0) (h : Reachable M d r) : r.fixedPart = r0.fixedPart := by
  induction h with
  | create hc => rw [h0] at hc; exact (Option.some.inj hc) ▸ rfl
  | setTuning t _ ih => exact ih
  | reset a _ ih => rw [Reset_fixedPart, ih]
  | step dt iterations a _ hs ih => rw [(Step_fixedPart M dt iterations a _ _ hs).1, ih]

/-- A power of 2 is positive. -/
theorem Flt_pow2_pos (k : Int) : 0 < Flt.pow2 k := by
  unfold Flt.pow2
  split_ifs <;> positivity

/-- The integer nearest to a rational that is not negative is not negative. -/
theorem Flt_roundEven_nonneg (q : ℚ) (h : 0 ≤ q) : 0 ≤ Flt.roundEven q := by
  unfold Flt.roundEven
  have hn : 0 ≤ q.num / (q.den : Int) :=
    Int.ediv_nonneg (Rat.num_nonneg.mpr h) (Int.natCast_nonneg _)
  simp only []
  split_ifs <;> omega

/-- Rounding a rational that is not negative gives a float that is not negative. -/
theorem Flt_round_nonneg (q : ℚ) (h : 0 ≤ q) : (Flt.fin 0).ble (Flt.round q) = true := by
  unfold Flt.round
  simp only []
  split_ifs
  · show (!decide (q < 0)) = true
    rw [Bool.not_eq_true', decide_eq_false_iff_not, not_lt]
    exact h
  · have hu := Flt_pow2_pos (max (Flt.exponent q) (-126) - 23)
    have hr : (0 : ℚ) ≤ (Flt.roundEven (q / Flt.pow2 (max (Flt.exponent q) (-126) - 23)) : ℚ) := by
      exact_mod_cast Flt_roundEven_nonneg _ (div_nonneg h (le_of_lt hu))
    show decide ((0 : ℚ) ≤ _) = true
    rw [decide_eq_true_iff]
    exact mul_nonneg hr (le_of_lt hu)

/-- The inverse mass that `Create` gives a particle of mass `m` is not negative. -/
theorem invMass_nonneg (m : ℚ) :
    (Flt.fin 0).ble (if 0 < m then Flt.fin 1 / Flt.fin m else Flt.fin 0) = true := by
  split_ifs with h
  · rw [Flt_fin_div, if_neg (ne_of_gt h)]
    split_ifs
    · exact decide_eq_true (zero_le_one : (0 : ℚ) ≤ 1)
    · exact Flt_round_nonneg _ (le_of_lt (one_div_pos.mpr h))
  · exact decide_eq_true (le_refl (0 : ℚ))

/-- C10: for every definition with at least 3 vertices `Create` builds a rope, and in that
rope and in every state reached from it by `Reset`, `SetTuning` and `Step`, the inverse
mass of particle `i` is the float quotient `1 / mass[i]` when `mass[i] > 0` and 0
otherwise; it is at least 0, and so is every inverse mass cached in a stretch or bend
constraint, which is the inverse mass of the particle the constraint refers to. -/
theorem Create_inverse_masses (M : b2Math) (d : b2RopeDef) (h3 : 3 ≤ d.count) :
    ∃ r0, Create M d = some r0 ∧
      ∀ r, Reachable M d r →
        r.m_count = d.count ∧ r.m_stretchCount = d.count - 1 ∧ r.m_bendCount = d.count - 2 ∧
        (∀ i, i < r.m_count →
          r.m_invMasses i =
            (if 0 < d.masses i then Flt.fin 1 / Flt.fin (d.masses i) else Flt.fin 0) ∧
          (Flt.fin 0).ble (r.m_invMasses i) = true) ∧
        (∀ i, i < r.m_stretchCount →
          (r.m_stretchConstraints i).invMass1 = r.m_invMasses i ∧
          (r.m_stretchConstraints i).invMass2 = r.m_invMasses (i + 1) ∧
          (Flt.fin 0).ble (r.m_stretchConstraints i).invMass1 = true ∧
          (Flt.fin 0).ble (r.m_stretchConstraints i).invMass2 = true) ∧
        (∀ i, i < r.m_bendCount →
          (r.m_bendConstraints i).invMass1 = r.m_invMasses i ∧
          (r.m_bendConstraints i).invMass2 = r.m_invMasses (i + 1) ∧
          (r.m_bendConstraints i).invMass3 = r.m_invMasses (i + 2) ∧
          (Flt.fin 0).ble (r.m_bendConstraints i).invMass1 = true ∧
          (Flt.fin 0).ble (r.m_bendConstraints i).invMass2 = true ∧
          (Flt.fin 0).ble (r.m_bendConstraints i).invMass3 = true) := by
  refine ⟨_, Create_eq M d h3, ?_⟩
  intro r hr
  have hf := Reachable_fixedPart M d _ r (Create_eq M d h3) hr
  have hcount : r.m_count = d.count := congrArg b2RopeFixed.count hf
  have hsc : r.m_stretchCount = d.count - 1 := congrArg b2RopeFixed.stretchCount hf
  have hbc : r.m_bendCount = d.count - 2 := congrArg b2RopeFixed.bendCount hf
  have hinv : r.m_invMasses = _ := congrArg b2RopeFixed.invMasses hf
  have hst : r.m_stretchConstraints = _ := congrArg b2RopeFixed.stretchConstraints hf
  have hbd : ∀ i, ({ r.m_bendConstraints i with lambda := Flt.fin 0 } : b2RopeBend) = _ :=
    fun i => congrFun (congrArg b2RopeFixed.bendConstraints hf) i
  simp only [b2Rope.fixedPart] at hinv hst hbd
  have hw : ∀ i, i < d.count → Create_invMass d i =
      (if 0 < d.masses i then Flt.fin 1 / Flt.fin (d.masses i) else Flt.fin 0) := by
    intro i hi
    simp only [Create_invMass, hi, if_true]
  refine ⟨hcount, hsc, hbc, ?_, ?_, ?_⟩
  · intro i hi
    have hi' : i < d.count := hcount ▸ hi
    rw [hinv, hw i hi']
    exact ⟨rfl, invMass_nonneg _⟩
  · intro i hi
    have hi' : i < d.count - 1 := hsc ▸ hi
    have h1 : i < d.count := by omega
    have h2 : i + 1 < d.count := by omega
    rw [hst, hinv]
    simp only [hi', if_true, true_and]
    rw [hw i h1, hw _ h2]
    exact ⟨invMass_nonneg _, invMass_nonneg _⟩
  · intro i hi
    have hi' : i < d.count - 2 := hbc ▸ hi
    have h1 : i < d.count := by omega
    have h2 : i + 1 < d.count := by omega
    have h3 : i + 2 < d.count := by omega
    have hb := hbd i
    simp only [hi', if_true, b2RopeBend.mk.injEq] at hb
    obtain ⟨_, _, _, e1, e2, e3, _⟩ := hb
    rw [e1, e2, e3, hinv]
    simp only [true_and]
    rw [hw i h1, hw _ h2, hw _ h3]
    exact ⟨invMass_nonneg _, invMass_nonneg _, invMass_nonneg _⟩

/-- C10, witness: the straight rope of three particles with masses 0, 1 and 2. -/
theorem Create_inverse_masses_witness :
    3 ≤ (straightDef (fun i => i) (exampleTuning b2_pbdAngleBendingModel false)).count ∧
    ∃ r0, Create M0 (straightDef (fun i => i) (exampleTuning b2_pbdAngleBendingModel false))
        = some r0 ∧
      ∀ r, Reachable M0 (straightDef (fun i => i) (exampleTuning b2_pbdAngleBendingModel false))
          r →
        r.m_count = 3 ∧ r.m_stretchCount = 3 - 1 ∧ r.m_bendCount = 3 - 2 ∧
        (∀ i, i < r.m_count →
          r.m_invMasses i =
            (if 0 < (i : ℚ) then Flt.fin 1 / Flt.fin (i : ℚ) else Flt.fin 0) ∧
          (Flt.fin 0).ble (r.m_invMasses i) = true) ∧
        (∀ i, i < r.m_stretchCount →
          (r.m_stretchConstraints i).invMass1 = r.m_invMasses i ∧
          (r.m_stretchConstraints i).invMass2 = r.m_invMasses (i + 1) ∧
          (Flt.fin 0).ble (r.m_stretchConstraints i).invMass1 = true ∧
          (Flt.fin 0).ble (r.m_stretchConstraints i).invMass2 = true) ∧
        (∀ i, i < r.m_bendCount →
          (r.m_bendConstraints i).invMass1 = r.m_invMasses i ∧
          (r.m_bendConstraints i).invMass2 = r.m_invMasses (i + 1) ∧
          (r.m_bendConstraints i).invMass3 = r.m_invMasses (i + 2) ∧
          (Flt.fin 0).ble (r.m_bendConstraints i).invMass1 = true ∧
          (Flt.fin 0).ble (r.m_bendConstraints i).invMass2 = true ∧
          (Flt.fin 0).ble (r.m_bendConstraints i).invMass3 = true) :=
  ⟨le_refl 3, Create_inverse_masses M0 _ (le_refl 3)⟩

/-- The rope that `Create` builds is laid out as described. -/
theorem Create_wellFormed (M : b2Math) (d : b2RopeDef) (r0 : b2Rope)
    (h0 : Create M d = some r0) : r0.fixedPart.wellFormed := by
  have h3 : 3 ≤ d.count := by
    by_contra hlt
    have : d.count < 3 := by omega
    simp [Create, this] at h0
  rw [Create_eq M d h3] at h0
  have h0 := Option.some.inj h0
  subst h0
  refine ⟨h3, rfl, rfl, ?_, ?_⟩
  · intro j hj
    have hj' : j < d.count - 1 := hj
    simp only [b2Rope.fixedPart, hj', if_true, and_self]
  · intro j hj
    have hj' : j < d.count - 2 := hj
    simp only [b2Rope.fixedPart, hj', if_true, and_self]

/-- In every reachable state the previous position of a particle is its position. -/
theorem Reachable_p0s (M : b2Math) (d : b2RopeDef) (r : b2Rope) (h : Reachable M d r) :
    ∀ i, i < r.m_count → r.m_p0s i = r.m_ps i := by
  induction h with
  | create hc =>
    have h3 : 3 ≤ d.count := by
      by_contra hlt
      have : d.count < 3 := by omega
      simp [Create, this] at hc
    rw [Create_eq M d h3] at hc
    have hc := Option.some.inj hc
    subst hc
    intro i _
    rfl
  | setTuning t _ ih => exact ih
  | reset a _ ih =>
    intro i hi
    rw [Reset_eq] at hi ⊢
    have hi' : i < _ := hi
    simp only [hi', if_true]
  | @step r1 r2 dt iterations a _ hs ih =>
    by_cases hdt : dt = 0
    · simp only [Step, hdt, if_true, Option.some.injEq] at hs
      subst hs
      exact ih
    · obtain ⟨r5, _, hk, hr'⟩ := Step_eq_some M dt iterations a r1 r2 hdt hs
      subst hr'
      intro i hi
      have hc : r5.m_count = r1.m_count := congrArg (fun x => x.1.count) hk
      have hi' : i < r1.m_count := hc ▸ hi
      simp only [hi', if_true]

/-! ## The data that `Reset` and `Step` leave alone -/

/-- Ropes with the same fixed part have the same fixed data, field by field. -/
theorem sameFixedData_of_fixedPart (s r : b2Rope) (h : s.fixedPart = r.fixedPart) :
    s.sameFixedData r := by
  have hc := congrArg b2RopeFixed.count h
  have hs := congrArg b2RopeFixed.stretchCount h
  have hb := congrArg b2RopeFixed.bendCount h
  have hp := congrArg b2RopeFixed.bindPositions h
  have hm := congrArg b2RopeFixed.invMasses h
  have hg := congrArg b2RopeFixed.gravity h
  have hS := congrArg b2RopeFixed.stretchConstraints h
  have hB := congrArg b2RopeFixed.bendConstraints h
  refine ⟨hc, hs, hb, hp, hm, hg, hS, fun j => ?_⟩
  have hj := congrFun hB j
  simp only [b2Rope.fixedPart] at hj
  injection hj with e1 e2 e3 e4 e5 e6 e7 _ e9 e10
  exact ⟨e1, e2, e3, e4, e5, e6, e9, e10, e7⟩

/-- C12: `Reset`, for every state and anchor, and `Step`, for every time step, iteration
count, anchor and state (hence tuning), leave the data that `Create` computed as they are:
the particle count, the bind positions, the inverse masses, the stretch constraints, and
the indices, cached inverse masses, rest lengths and effective inverse mass of every bend
constraint; the tuning stays too, and `Step` keeps the stored anchor.  For `Step` this
holds of the state it returns, and of every state between two iterations of its constraint
loop, among them the one in which a bend pass fails its assertion; and `Step` returns a
state whenever the assertions hold. -/
theorem Reset_Step_frame (M : b2Math) (r : b2Rope) (a : b2Vec2 ℚ) (dt : ℚ)
    (iterations : Int) :
    ((Reset a r).sameFixedData r ∧ (Reset a r).m_tuning = r.m_tuning) ∧
    (∀ r', Step M dt iterations a r = some r' →
      r'.sameFixedData r ∧ r'.m_tuning = r.m_tuning ∧ r'.m_position = r.m_position) ∧
    (∀ k s, Step_iterate M dt k (Step_predict M dt a r) = some s →
      s.sameFixedData r ∧ s.m_tuning = r.m_tuning ∧ s.m_position = r.m_position) ∧
    (Step_runs dt iterations r.m_tuning → ∃ r', Step M dt iterations a r = some r') := by
  refine ⟨⟨sameFixedData_of_fixedPart _ _ (Reset_fixedPart a r), ?_⟩, ?_, ?_, ?_⟩
  · rw [Reset_eq]
  · intro r' h
    obtain ⟨h1, h2, h3⟩ := Step_fixedPart M dt iterations a r r' h
    exact ⟨sameFixedData_of_fixedPart _ _ h1, h2, h3⟩
  · intro k s h
    have hk : s.kept = r.kept :=
      (Step_iterate_kept M dt k _ s h).trans (Step_predict_kept M dt a r)
    have h1 : s.fixedPart = r.fixedPart := congrArg Prod.fst hk
    have h2 : s.m_tuning = r.m_tuning := congrArg (fun p => p.2.1) hk
    have h3 : s.m_position = r.m_position := congrArg (fun p => p.2.2.1) hk
    exact ⟨sameFixedData_of_fixedPart _ _ h1, h2, h3⟩
  · exact Step_runs_some M dt iterations a r


/-- The rope `ropeOf d` is the rope that `Create` builds, when `d` has 3 vertices or more. -/
theorem Create_ropeOf (d : b2RopeDef) (h3 : 3 ≤ d.count) : Create M0 d = some (ropeOf d) := by
  unfold ropeOf
  rw [Create_eq M0 d h3]
  rfl

/-! ## Previous position -/

/-- C19: in every state reachable from `Create` by any sequence of `Reset`, `SetTuning`
and `Step` (any time step, 0 included, any iteration count, any tuning), the previous
position of every particle is its position. -/
theorem Reachable_previous_position (M : b2Math) (d : b2RopeDef) (r : b2Rope)
    (hr : Reachable M d r) (i : Nat) (hi : i < r.m_count) : r.m_p0s i = r.m_ps i :=
  Reachable_p0s M d r hr i hi

/-- C19 at a concrete state: the straight rope after a step with one PBD-Height iteration,
a change of tuning, a reset and a step with one Soft-Angle iteration. -/
theorem Reachable_previous_position_witness :
    ∃ r1 r2, Step M0 1 1 ⟨0, 0⟩ (straightRope (exampleTuning b2_pbdHeightBendingModel false))
        = some r1 ∧
      Step M0 1 1 ⟨2, 0⟩
        (Reset ⟨1, 1⟩ (SetTuning (exampleTuning b2_softAngleBendingModel true) r1)) = some r2 ∧
      Reachable M0 (straightDef (fun _ => 1) (exampleTuning b2_pbdHeightBendingModel false)) r2 ∧
      1 < r2.m_count ∧ r2.m_p0s 1 = r2.m_ps 1 := by
  have h0 : Reachable M0
      (straightDef (fun _ => 1) (exampleTuning b2_pbdHeightBendingModel false))
      (straightRope (exampleTuning b2_pbdHeightBendingModel false)) :=
    Reachable.create (Create_ropeOf _ (le_refl 3))
  obtain ⟨r1, h1⟩ := Step_runs_some M0 1 1 ⟨0, 0⟩
    (straightRope (exampleTuning b2_pbdHeightBendingModel false)) (Or.inl one_pos)
  obtain ⟨r2, h2⟩ := Step_runs_some M0 1 1 ⟨2, 0⟩
    (Reset ⟨1, 1⟩ (SetTuning (exampleTuning b2_softAngleBendingModel true) r1)) (Or.inl one_pos)
  have hr2 : Reachable M0
      (straightDef (fun _ => 1) (exampleTuning b2_pbdHeightBendingModel false)) r2 :=
    Reachable.step 1 1 ⟨2, 0⟩ (Reachable.reset ⟨1, 1⟩ (Reachable.setTuning _
      (Reachable.step 1 1 ⟨0, 0⟩ h0 h1))) h2
  have hc : r2.m_count = 3 := by
    have e := Reachable_fixedPart M0 _ _ r2 (Create_ropeOf _ (le_refl 3)) hr2
    exact congrArg b2RopeFixed.count e
  have hi : 1 < r2.m_count := by rw [hc]; decide
  exact ⟨r1, r2, h1, h2, hr2, hi, Reachable_previous_position M0 _ r2 hr2 1 hi⟩


/-! ## The multipliers -/

/-- The integrator leaves the bend constraints, multipliers included, alone; so do, below,
the spring pass, the warm start, the stretch pass and the bend passes PBD-Angle,
PBD-Distance and PBD-Height. -/
theorem Step_integrate_bend (M : b2Math) (dt : ℚ) (a : b2Vec2 ℚ) (i : Nat) (r : b2Rope) :
    (Step_integrate M dt a i r).m_bendConstraints = r.m_bendConstraints := by
  unfold Step_integrate
  simp only []
  split_ifs <;> rfl

theorem ApplyBendForces_body_bend (M : b2Math) (dt : ℚ) (i : Nat) (r : b2Rope) :
    (ApplyBendForces_body M dt i r).m_bendConstraints = r.m_bendConstraints := by
  unfold ApplyBendForces_body
  simp only []
  split_ifs <;> rfl

theorem Step_warmStart_bend (i : Nat) (r : b2Rope) :
    (Step_warmStart i r).m_bendConstraints = r.m_bendConstraints := by
  unfold Step_warmStart
  simp only []
  split_ifs <;> rfl

theorem SolveStretch_body_bend (M : b2Math) (i : Nat) (r : b2Rope) :
    (SolveStretch_body M i r).m_bendConstraints = r.m_bendConstraints := by
  unfold SolveStretch_body
  simp only []
  split_ifs <;> rfl

theorem SolveBend_PBD_Angle_body_bend (M : b2Math) (i : Nat) (r : b2Rope) :
    (SolveBend_PBD_Angle_body M i r).m_bendConstraints = r.m_bendConstraints := by
  unfold SolveBend_PBD_Angle_body
  simp only []
  split_ifs <;> rfl

theorem SolveBend_PBD_Distance_body_bend (M : b2Math) (i : Nat) (r : b2Rope) :
    (SolveBend_PBD_Distance_body M i r).m_bendConstraints = r.m_bendConstraints := by
  unfold SolveBend_PBD_Distance_body
  simp only []
  split_ifs <;> rfl

theorem SolveBend_PBD_Height_body_bend (M : b2Math) (i : Nat) (r : b2Rope) :
    (SolveBend_PBD_Height_body M i r).m_bendConstraints = r.m_bendConstraints := by
  unfold SolveBend_PBD_Height_body
  simp only []
  split_ifs <;> rfl

/-- A loop whose body leaves the bend constraints alone leaves them alone. -/
theorem forLoop_bend (body : Nat → b2Rope → b2Rope) (n : Nat) (s : b2Rope)
    (h : ∀ i s, (body i s).m_bendConstraints = s.m_bendConstraints) :
    (forLoop n body s).m_bendConstraints = s.m_bendConstraints :=
  forLoop_keeps (fun s => s.m_bendConstraints) body n s h

/-- The bend constraints when the constraint loop of a step starts: as they were when the
model is Soft-Angle with warm start, and with every multiplier cleared otherwise. -/
theorem Step_predict_bend (M : b2Math) (dt : ℚ) (a : b2Vec2 ℚ) (r : b2Rope) :
    (Step_predict M dt a r).m_bendConstraints =
      if r.m_tuning.bendingModel = b2_softAngleBendingModel ∧ r.m_tuning.warmStart = true then
        r.m_bendConstraints
      else fun j =>
        if j < r.m_bendCount then { r.m_bendConstraints j with lambda := Flt.fin 0 }
        else r.m_bendConstraints j := by
  have hk1 := forLoop_keeps b2Rope.kept _ r.m_count r (Step_integrate_kept M dt a)
  have hb1 := forLoop_bend _ r.m_count r (Step_integrate_bend M dt a)
  unfold Step_predict
  lift_lets
  intro r1 r2 r3
  have h2 : r2.m_bendConstraints = r.m_bendConstraints ∧ r2.kept = r.kept := by
    show (if r1.m_tuning.bendingModel = b2_springAngleBendingModel then ApplyBendForces M dt r1
        else r1).m_bendConstraints = r.m_bendConstraints ∧
      (if r1.m_tuning.bendingModel = b2_springAngleBendingModel then ApplyBendForces M dt r1
        else r1).kept = r.kept
    split_ifs
    · exact ⟨(forLoop_bend _ _ _ (ApplyBendForces_body_bend M dt)).trans hb1,
        (forLoop_keeps b2Rope.kept _ _ _ (ApplyBendForces_body_kept M dt)).trans hk1⟩
    · exact ⟨hb1, hk1⟩
  rw [forLoop_bend (Step_updatePosition dt) _ _ (fun _ _ => rfl)]
  show (if r2.m_tuning.bendingModel = b2_softAngleBendingModel ∧ r2.m_tuning.warmStart = true
      then forLoop r2.m_bendCount Step_warmStart r2
      else forLoop r2.m_bendCount clearLambda r2).m_bendConstraints = _
  rw [kept_tuning _ _ h2.2, kept_bendCount _ _ h2.2]
  split_ifs with hw
  · rw [forLoop_bend _ _ _ Step_warmStart_bend, h2.1]
  · rw [forLoop_clearLambda]
    show (fun i => if i < r.m_bendCount then { r2.m_bendConstraints i with lambda := Flt.fin 0 }
      else r2.m_bendConstraints i) = _
    rw [h2.1]

/-- One pass of the constraint loop leaves the bend constraints, multipliers included,
alone when the model is neither XPBD-Angle nor Soft-Angle. -/
theorem Step_solve_bend (M : b2Math) (dt : ℚ) (r r' : b2Rope)
    (hm : r.m_tuning.bendingModel ≠ b2_xpbdAngleBendingModel ∧
      r.m_tuning.bendingModel ≠ b2_softAngleBendingModel)
    (h : Step_solve M dt r = some r') : r'.m_bendConstraints = r.m_bendConstraints := by
  unfold Step_solve Step_bend at h
  simp only [hm.1, hm.2, if_false] at h
  split_ifs at h <;> simp only [Option.map_some', Option.some.injEq] at h <;> subst h <;>
    unfold SolveStretch <;> rw [forLoop_bend _ _ _ (SolveStretch_body_bend M)]
  · exact forLoop_bend _ _ _ (SolveBend_PBD_Angle_body_bend M)
  · exact forLoop_bend _ _ _ (SolveBend_PBD_Distance_body_bend M)
  · exact forLoop_bend _ _ _ (SolveBend_PBD_Height_body_bend M)

/-- The constraint loop leaves the bend constraints, multipliers included, alone when the
model is neither XPBD-Angle nor Soft-Angle. -/
theorem Step_iterate_bend (M : b2Math) (dt : ℚ) (n : Nat) (r r' : b2Rope)
    (hm : r.m_tuning.bendingModel ≠ b2_xpbdAngleBendingModel ∧
      r.m_tuning.bendingModel ≠ b2_softAngleBendingModel)
    (h : Step_iterate M dt n r = some r') : r'.m_bendConstraints = r.m_bendConstraints := by
  induction n generalizing r' with
  | zero => simp only [Step_iterate, Option.some.injEq] at h; subst h; rfl
  | succ k ih =>
    simp only [Step_iterate, Option.bind_eq_some] at h
    obtain ⟨r1, h1, h2⟩ := h
    have ht : r1.m_tuning = r.m_tuning := kept_tuning _ _ (Step_iterate_kept M dt k r r1 h1)
    rw [Step_solve_bend M dt r1 r' (by rw [ht]; exact hm) h2, ih r1 h1]

/-- C14: in every `Step` with `dt ≠ 0` whose tuning selects PBD-Angle, PBD-Distance,
PBD-Height or the spring-angle model, whatever the multipliers were before, the step
completes and afterwards the multiplier `lambda` of every bend constraint is 0; and in every
`Step` with `dt ≠ 0`, unless the model is Soft-Angle with `warmStart` set, every multiplier
is 0 when the constraint loop starts. -/
theorem Step_clears_lambda (M : b2Math) (dt : ℚ) (iterations : Int) (a : b2Vec2 ℚ)
    (r : b2Rope) (hdt : dt ≠ 0) :
    ((r.m_tuning.bendingModel = b2_pbdAngleBendingModel ∨
        r.m_tuning.bendingModel = b2_pbdDistanceBendingModel ∨
        r.m_tuning.bendingModel = b2_pbdHeightBendingModel ∨
        r.m_tuning.bendingModel = b2_springAngleBendingModel) →
      ∃ r', Step M dt iterations a r = some r' ∧ r'.m_bendCount = r.m_bendCount ∧
        ∀ j, j < r.m_bendCount → (r'.m_bendConstraints j).lambda = Flt.fin 0) ∧
    (¬ (r.m_tuning.bendingModel = b2_softAngleBendingModel ∧ r.m_tuning.warmStart = true) →
      ∀ j, j < r.m_bendCount →
        ((Step_predict M dt a r).m_bendConstraints j).lambda = Flt.fin 0) := by
  have hpre : ¬ (r.m_tuning.bendingModel = b2_softAngleBendingModel ∧
        r.m_tuning.warmStart = true) →
      ∀ j, j < r.m_bendCount →
        ((Step_predict M dt a r).m_bendConstraints j).lambda = Flt.fin 0 := by
    intro hnw j hj
    rw [Step_predict_bend, if_neg hnw]
    simp only [hj, if_true]
  refine ⟨?_, hpre⟩
  intro hmodel
  have hm : r.m_tuning.bendingModel ≠ b2_xpbdAngleBendingModel ∧
      r.m_tuning.bendingModel ≠ b2_softAngleBendingModel := by
    rcases hmodel with h | h | h | h <;> rw [h] <;> exact ⟨by decide, by decide⟩
  obtain ⟨r', hr'⟩ := Step_runs_some M dt iterations a r (Or.inr (Or.inr hm))
  obtain ⟨r5, h5, hk, e⟩ := Step_eq_some M dt iterations a r r' hdt hr'
  have ht : (Step_predict M dt a r).m_tuning = r.m_tuning :=
    kept_tuning _ _ (Step_predict_kept M dt a r)
  have hb5 := Step_iterate_bend M dt _ _ r5 (by rw [ht]; exact hm) h5
  refine ⟨r', hr', ?_, ?_⟩
  · rw [e]; exact kept_bendCount r5 r hk
  · intro j hj
    rw [e]
    show (r5.m_bendConstraints j).lambda = Flt.fin 0
    rw [hb5]
    exact hpre (fun h => hm.2 h.1) j hj

/-- C14 at a concrete rope: the multiplier, the float nearest to `3/20`, that a Soft-Angle
step leaves in the rope that swings straight is 0 after a later PBD-Distance step. -/
theorem Step_clears_lambda_witness :
    (1 : ℚ) ≠ 0 ∧
    (Step M0 1 1 ⟨0, -7 / 4⟩ (ropeOf (swungDef b2_softAngleBendingModel))).map
      (fun r => (r.m_bendConstraints 0).lambda) = some (Flt.fin (5033165 / 33554432)) ∧
    ∀ s, Step M0 1 1 ⟨0, -7 / 4⟩ (ropeOf (swungDef b2_softAngleBendingModel)) = some s →
      ∃ r', Step M0 1 1 ⟨0, -7 / 4⟩
          (SetTuning (exampleTuning b2_pbdDistanceBendingModel false) s) = some r' ∧
        (r'.m_bendConstraints 0).lambda = Flt.fin 0 := by
  refine ⟨one_ne_zero, by decide!, ?_⟩
  intro s hs
  obtain ⟨r', h1, -, h3⟩ := (Step_clears_lambda M0 1 1 ⟨0, -7 / 4⟩
    (SetTuning (exampleTuning b2_pbdDistanceBendingModel false) s) one_ne_zero).1
      (Or.inr (Or.inl rfl))
  refine ⟨r', h1, h3 0 ?_⟩
  have hb : s.m_bendCount = (ropeOf (swungDef b2_softAngleBendingModel)).m_bendCount :=
    congrArg b2RopeFixed.bendCount (Step_fixedPart M0 1 1 ⟨0, -7 / 4⟩ _ s hs).1
  show 0 < s.m_bendCount
  rw [hb]
  decide!

/-! ## The layout of the constraints -/

/-- The indices and cached inverse masses of bend constraint `j` of a rope laid out as
`Create` lays it out. -/
theorem wellFormed_bend (r : b2Rope) (hw : r.fixedPart.wellFormed) (j : Nat)
    (hj : j < r.m_bendCount) :
    (r.m_bendConstraints j).i1 = j ∧ (r.m_bendConstraints j).i2 = j + 1 ∧
    (r.m_bendConstraints j).i3 = j + 2 ∧
    (r.m_bendConstraints j).invMass1 = r.m_invMasses j ∧
    (r.m_bendConstraints j).invMass2 = r.m_invMasses (j + 1) ∧
    (r.m_bendConstraints j).invMass3 = r.m_invMasses (j + 2) :=
  hw.2.2.2.2 j hj

/-- The indices and cached inverse masses of stretch constraint `j` of a rope laid out as
`Create` lays it out. -/
theorem wellFormed_stretch (r : b2Rope) (hw : r.fixedPart.wellFormed) (j : Nat)
    (hj : j < r.m_stretchCount) :
    (r.m_stretchConstraints j).i1 = j ∧ (r.m_stretchConstraints j).i2 = j + 1 ∧
    (r.m_stretchConstraints j).invMass1 = r.m_invMasses j ∧
    (r.m_stretchConstraints j).invMass2 = r.m_invMasses (j + 1) :=
  hw.2.2.2.1 j hj

/-- The rope `ropeOf d` is laid out as `Create` lays it out. -/
theorem ropeOf_wellFormed (d : b2RopeDef) (h3 : 3 ≤ d.count) :
    (ropeOf d).fixedPart.wellFormed :=
  Create_wellFormed M0 d _ (Create_ropeOf d h3)


/-! ## PBD-Distance is the stretch update of the outer pair -/

/-- C15: for every bend constraint `j` of a rope laid out as `Create` lays it out, the
PBD-Distance update writes the positions that the stretch update writes when stretch
constraint `k` joins the outer particles `i1`, `i3` with the cached inverse masses
`invMass1`, `invMass3`, the rest length `L1 + L2` and the bend stiffness as stiffness, and
it changes nothing else; it does nothing when `invMass1 + invMass3 = 0`; and the middle
particle, like every particle other than the outer two, stays where it is. -/
theorem SolveBend_PBD_Distance_refines (M : b2Math) (r : b2Rope)
    (hw : r.fixedPart.wellFormed) (j : Nat) (hj : j < r.m_bendCount) (k : Nat) :
    SolveBend_PBD_Distance_body M j r
      = { r with m_ps := (SolveStretch_body M k (outerStretch r j k)).m_ps } ∧
    ((r.m_bendConstraints j).invMass1 + (r.m_bendConstraints j).invMass3 = Flt.fin 0 →
      SolveBend_PBD_Distance_body M j r = r ∧
      SolveStretch_body M k (outerStretch r j k) = outerStretch r j k) ∧
    ((r.m_bendConstraints j).i1 = j ∧ (r.m_bendConstraints j).i2 = j + 1 ∧
      (r.m_bendConstraints j).i3 = j + 2) ∧
    (SolveBend_PBD_Distance_body M j r).m_ps (j + 1) = r.m_ps (j + 1) ∧
    (∀ i, i ≠ j → i ≠ j + 2 → (SolveBend_PBD_Distance_body M j r).m_ps i = r.m_ps i) := by
  obtain ⟨e1, e2, e3, -⟩ := wellFormed_bend r hw j hj
  have hout : ∀ i, i ≠ j → i ≠ j + 2 →
      (SolveBend_PBD_Distance_body M j r).m_ps i = r.m_ps i := by
    intro i h1 h2
    unfold SolveBend_PBD_Distance_body
    simp only [e1, e3]
    split_ifs
    · rfl
    · show Function.update (Function.update r.m_ps j _) (j + 2) _ i = _
      rw [Function.update_noteq h2, Function.update_noteq h1]
  refine ⟨?_, ?_, ⟨e1, e2, e3⟩, hout (j + 1) (by omega) (by omega), hout⟩
  · unfold SolveBend_PBD_Distance_body SolveStretch_body outerStretch
    simp only [Function.update_same]
    split_ifs <;> rfl
  · intro h0
    constructor
    · unfold SolveBend_PBD_Distance_body
      simp only [if_pos h0]
    · unfold SolveStretch_body outerStretch
      simp only [Function.update_same, if_pos h0]

/-- C15 at a concrete rope: in the bent rope the PBD-Distance update and the stretch update
of the outer pair both move the outer particles to `(-1, 0)` and `(9, 0)`, and the middle
particle stays at `(4, 3)`. -/
theorem SolveBend_PBD_Distance_refines_witness :
    ((bentRope (exampleTuning b2_pbdDistanceBendingModel false)).fixedPart.wellFormed ∧
      0 < (bentRope (exampleTuning b2_pbdDistanceBendingModel false)).m_bendCount) ∧
    (SolveBend_PBD_Distance_body M0 0 (bentRope (exampleTuning b2_pbdDistanceBendingModel false))
        = { bentRope (exampleTuning b2_pbdDistanceBendingModel false) with
            m_ps := (SolveStretch_body M0 0 (outerStretch
              (bentRope (exampleTuning b2_pbdDistanceBendingModel false)) 0 0)).m_ps }) ∧
    ((SolveStretch_body M0 0 (outerStretch
        (bentRope (exampleTuning b2_pbdDistanceBendingModel false)) 0 0)).m_ps 0
        = ⟨Flt.fin (-1), Flt.fin 0⟩ ∧
      (SolveStretch_body M0 0 (outerStretch
        (bentRope (exampleTuning b2_pbdDistanceBendingModel false)) 0 0)).m_ps 1
        = ⟨Flt.fin 4, Flt.fin 3⟩ ∧
      (SolveStretch_body M0 0 (outerStretch
        (bentRope (exampleTuning b2_pbdDistanceBendingModel false)) 0 0)).m_ps 2
        = ⟨Flt.fin 9, Flt.fin 0⟩) :=
  ⟨⟨ropeOf_wellFormed _ (le_refl 3), by decide!⟩,
    (SolveBend_PBD_Distance_refines M0 _ (ropeOf_wellFormed _ (le_refl 3)) 0 (by decide!) 0).1,
    by decide!, by decide!, by decide!⟩

/-! ## Passes that write back what they read -/

/-- A finite float is a rational. -/
theorem Flt_exists_of_isFin {x : Flt} (hx : x.isFin = true) : ∃ a, x = Flt.fin a := by
  cases x with
  | fin a => exact ⟨a, rfl⟩
  | inf s => cases hx
  | nan => cases hx

/-- A finite vector is a vector of rationals. -/
theorem b2Vec2_exists_of_isFin {v : b2Vec2 Flt} (hv : v.isFin) : ∃ q : b2Vec2 ℚ, v = q.toFlt := by
  obtain ⟨x, hx⟩ := Flt_exists_of_isFin hv.1
  obtain ⟨y, hy⟩ := Flt_exists_of_isFin hv.2
  exact ⟨⟨x, y⟩, b2Vec2.ext hx hy⟩

/-- Writing to three entries the values they hold changes nothing. -/
theorem update3_self (ps : Nat → b2Vec2 Flt) (i1 i2 i3 : Nat) (q1 q2 q3 : b2Vec2 Flt)
    (h1 : q1 = ps i1) (h2 : q2 = ps i2) (h3 : q3 = ps i3) :
    Function.update (Function.update (Function.update ps i1 q1) i2 q2) i3 q3 = ps := by
  subst h1
  rw [Function.update_eq_self]
  subst h2
  rw [Function.update_eq_self]
  subst h3
  rw [Function.update_eq_self]

/-- Writing to two entries the values they hold changes nothing. -/
theorem update2_self (ps : Nat → b2Vec2 Flt) (i1 i2 : Nat) (q1 q2 : b2Vec2 Flt)
    (h1 : q1 = ps i1) (h2 : q2 = ps i2) :
    Function.update (Function.update ps i1 q1) i2 q2 = ps := by
  subst h1
  rw [Function.update_eq_self]
  subst h2
  rw [Function.update_eq_self]

/-- Two writes after which the two entries hold what they held change nothing. -/
theorem update2_fixed (ps : Nat → b2Vec2 Flt) (i1 i2 : Nat) (q1 q2 : b2Vec2 Flt)
    (h1 : Function.update (Function.update ps i1 q1) i2 q2 i1 = ps i1)
    (h2 : Function.update (Function.update ps i1 q1) i2 q2 i2 = ps i2) :
    Function.update (Function.update ps i1 q1) i2 q2 = ps := by
  funext k
  by_cases hk2 : k = i2
  · rw [hk2]; exact h2
  · by_cases hk1 : k = i1
    · rw [hk1]; exact h1
    · rw [Function.update_noteq hk2, Function.update_noteq hk1]

/-- Three writes after which the three entries hold what they held change nothing. -/
theorem update3_fixed (ps : Nat → b2Vec2 Flt) (i1 i2 i3 : Nat) (q1 q2 q3 : b2Vec2 Flt)
    (h1 : Function.update (Function.update (Function.update ps i1 q1) i2 q2) i3 q3 i1 = ps i1)
    (h2 : Function.update (Function.update (Function.update ps i1 q1) i2 q2) i3 q3 i2 = ps i2)
    (h3 : Function.update (Function.update (Function.update ps i1 q1) i2 q2) i3 q3 i3 = ps i3) :
    Function.update (Function.update (Function.update ps i1 q1) i2 q2) i3 q3 = ps := by
  funext k
  by_cases hk3 : k = i3
  · rw [hk3]; exact h3
  · by_cases hk2 : k = i2
    · rw [hk2]; exact h2
    · by_cases hk1 : k = i1
      · rw [hk1]; exact h1
      · rw [Function.update_noteq hk3, Function.update_noteq hk2, Function.update_noteq hk1]

/-- A stretch update returns the rope or the rope with two positions written. -/
theorem SolveStretch_body_shape (M : b2Math) (j : Nat) (r : b2Rope) :
    SolveStretch_body M j r = r ∨ ∃ n1 n2 : b2Vec2 Flt, SolveStretch_body M j r
      = { r with m_ps := Function.update (Function.update r.m_ps
          (r.m_stretchConstraints j).i1 n1) (r.m_stretchConstraints j).i2 n2 } := by
  unfold SolveStretch_body
  lift_lets
  intro stiffness c p1 p2 d L d' sum s1 s2 n1 n2
  split_ifs with h
  · exact Or.inl rfl
  · exact Or.inr ⟨n1, n2, rfl⟩

/-- A stretch update after which the two particles of the constraint are where they were
changes nothing. -/
theorem SolveStretch_body_fixed (M : b2Math) (j : Nat) (r : b2Rope)
    (h1 : (SolveStretch_body M j r).m_ps (r.m_stretchConstraints j).i1
      = r.m_ps (r.m_stretchConstraints j).i1)
    (h2 : (SolveStretch_body M j r).m_ps (r.m_stretchConstraints j).i2
      = r.m_ps (r.m_stretchConstraints j).i2) :
    SolveStretch_body M j r = r := by
  rcases SolveStretch_body_shape M j r with h | ⟨n1, n2, h⟩
  · exact h
  · rw [h] at h1 h2 ⊢
    show ({ r with m_ps := Function.update (Function.update r.m_ps
      (r.m_stretchConstraints j).i1 n1) (r.m_stretchConstraints j).i2 n2 } : b2Rope) = r
    rw [update2_fixed r.m_ps _ _ n1 n2 h1 h2]

/-! ## The divisions by zero of the PBD-Angle pass -/

/-- C8, the code at the failing input: in the folded rope the three particles of the bend
triple coincide at `(0, 0)` when the constraint loop starts; with the PBD-Angle model and
`isometric` on, the bend pass divides by the zero effective inverse mass and leaves all
three at non-finite positions. -/
theorem angle_pass_coincident_triple :
    ((foldedRope (exampleTuning b2_pbdAngleBendingModel true)).m_ps 0 = ⟨Flt.fin 0, Flt.fin 0⟩ ∧
      (foldedRope (exampleTuning b2_pbdAngleBendingModel true)).m_ps 1
        = ⟨Flt.fin 0, Flt.fin 0⟩ ∧
      (foldedRope (exampleTuning b2_pbdAngleBendingModel true)).m_ps 2
        = ⟨Flt.fin 0, Flt.fin 0⟩) ∧
    ((SolveBend_PBD_Angle_body M0 0 (foldedRope (exampleTuning b2_pbdAngleBendingModel true))
        ).m_ps 0 = ⟨Flt.nan, Flt.nan⟩ ∧
      (SolveBend_PBD_Angle_body M0 0 (foldedRope (exampleTuning b2_pbdAngleBendingModel true))
        ).m_ps 1 = ⟨Flt.nan, Flt.nan⟩ ∧
      (SolveBend_PBD_Angle_body M0 0 (foldedRope (exampleTuning b2_pbdAngleBendingModel true))
        ).m_ps 2 = ⟨Flt.nan, Flt.nan⟩) := by
  refine ⟨⟨?_, ?_, ?_⟩, ?_, ?_, ?_⟩ <;> decide!

/-- C20, the code at the failing input: the rope of `kinkDef`, all of whose particles are
dynamic, is after the first iteration of a step of length 1 the rope `kinkRope`, at finite
positions with mass-weighted sum `(2, 1)`; its first bend constraint has effective inverse
mass 0, and the PBD-Angle pass of the second iteration divides by it: the mass-weighted sum
becomes non-finite.  Likewise the XPBD-Angle pass with `bendHertz = 0` on the bent rope
of three particles of mass 1, whose mass-weighted sum `(12, -27)` becomes non-finite. -/
theorem angle_pass_breaks_weighted_sum :
    ((∀ i, i < kinkDef.count → 0 < kinkDef.masses i) ∧
      Step_iterate M0 1 1 (Step_predict M0 1 ⟨0, 0⟩ (ropeOf kinkDef)) = some kinkRope ∧
      (∀ i, i < kinkRope.m_count →
        (kinkRope.m_ps i).isFin ∧ (Flt.fin 0).blt (kinkRope.m_invMasses i) = true) ∧
      (kinkRope.m_bendConstraints 0).invEffectiveMass = Flt.fin 0 ∧
      massWeightedSum kinkRope = ⟨Flt.fin 2, Flt.fin 1⟩ ∧
      massWeightedSum (SolveBend_PBD_Angle M0 kinkRope) = ⟨Flt.nan, Flt.nan⟩) ∧
    ((∀ i, i < 3 →
        (Flt.fin 0).blt ((Step_predict M0 1 ⟨0, 0⟩ (bentRope
          { exampleTuning b2_xpbdAngleBendingModel false with bendHertz := 0 })).m_invMasses i)
          = true) ∧
      massWeightedSum (Step_predict M0 1 ⟨0, 0⟩ (bentRope
          { exampleTuning b2_xpbdAngleBendingModel false with bendHertz := 0 }))
        = ⟨Flt.fin 12, Flt.fin (-27)⟩ ∧
      (SolveBend_XPBD_Angle M0 1 (Step_predict M0 1 ⟨0, 0⟩ (bentRope
          { exampleTuning b2_xpbdAngleBendingModel false with bendHertz := 0 }))).map
        massWeightedSum = some ⟨Flt.nan, Flt.nan⟩) := by
  have hfin : ∀ i, i < kinkRope.m_count →
      (kinkRope.m_ps i).isFin ∧ (Flt.fin 0).blt (kinkRope.m_invMasses i) = true := by
    intro i hi
    have hc : kinkRope.m_count = 4 := by decide!
    rw [hc] at hi
    interval_cases i <;> decide!
  have hstretch : SolveStretch M0 kinkRope = kinkRope := by
    unfold SolveStretch
    apply forLoop_eq_self
    intro j hj
    have hc : kinkRope.m_stretchCount = 3 := by decide!
    rw [hc] at hj
    apply SolveStretch_body_fixed M0 j kinkRope
    · interval_cases j <;> decide!
    · interval_cases j <;> decide!
  refine ⟨⟨?_, ?_, hfin, by decide!, by decide!, by decide!⟩, ?_, by decide!, by decide!⟩
  · intro i _
    exact one_pos
  · show (some (Step_predict M0 1 ⟨0, 0⟩ (ropeOf kinkDef))).bind (Step_solve M0 1) = _
    show Step_solve M0 1 (Step_predict M0 1 ⟨0, 0⟩ (ropeOf kinkDef)) = _
    have hb : Step_bend M0 1 (Step_predict M0 1 ⟨0, 0⟩ (ropeOf kinkDef)) = some kinkRope := by
      unfold Step_bend
      rw [if_pos (by decide!)]
      rfl
    unfold Step_solve
    rw [hb]
    show some (SolveStretch M0 kinkRope) = _
    rw [hstretch]
  · intro i hi
    interval_cases i <;> decide!

/-! ## The constraints that `Create` builds -/

/-- C11, amended: for every definition with at least 3 vertices `Create` returns a rope with
`count - 1` stretch constraints and `count - 2` bend constraints.  Stretch constraint `i`
joins the particles `i` and `i + 1`, caches their inverse masses, and its rest length is
the distance `b2Distance` of the positions stored for the two particles, each the float sum
of the vertex and the anchor; it is not negative when the square root is not.  Bend
constraint `i` joins `i`, `i + 1`, `i + 2`, caches their inverse masses, has the rest
lengths of the stretch constraints `i` and `i + 1` as `L1` and `L2`, and its multiplier is
0. -/
theorem Create_constraints (M : b2Math) (d : b2RopeDef) (h3 : 3 ≤ d.count) :
    ∃ r, Create M d = some r ∧
      r.m_count = d.count ∧ r.m_stretchCount = d.count - 1 ∧ r.m_bendCount = d.count - 2 ∧
      (∀ i, i < r.m_count → r.m_ps i = (d.vertices i).toFlt + d.position.toFlt) ∧
      (∀ i, i < r.m_stretchCount →
        (r.m_stretchConstraints i).i1 = i ∧ (r.m_stretchConstraints i).i2 = i + 1 ∧
        (r.m_stretchConstraints i).invMass1 = r.m_invMasses i ∧
        (r.m_stretchConstraints i).invMass2 = r.m_invMasses (i + 1) ∧
        (r.m_stretchConstraints i).L =
          b2Distance M ((d.vertices i).toFlt + d.position.toFlt)
            ((d.vertices (i + 1)).toFlt + d.position.toFlt) ∧
        ((∀ x, (M.b2Sqrt x).blt (Flt.fin 0) = false) →
          (r.m_stretchConstraints i).L.blt (Flt.fin 0) = false)) ∧
      (∀ i, i < r.m_bendCount →
        (r.m_bendConstraints i).i1 = i ∧ (r.m_bendConstraints i).i2 = i + 1 ∧
        (r.m_bendConstraints i).i3 = i + 2 ∧
        (r.m_bendConstraints i).invMass1 = r.m_invMasses i ∧
        (r.m_bendConstraints i).invMass2 = r.m_invMasses (i + 1) ∧
        (r.m_bendConstraints i).invMass3 = r.m_invMasses (i + 2) ∧
        (r.m_bendConstraints i).L1 = (r.m_stretchConstraints i).L ∧
        (r.m_bendConstraints i).L2 = (r.m_stretchConstraints (i + 1)).L ∧
        (r.m_bendConstraints i).lambda = Flt.fin 0) := by
  refine ⟨_, Create_eq M d h3, rfl, rfl, rfl, ?_, ?_, ?_⟩
  · intro i hi
    have hi' : i < d.count := hi
    simp only [Create_position, hi', if_true]
  · intro i hi
    have hi' : i < d.count - 1 := hi
    have h1 : i < d.count := by omega
    have h2 : i + 1 < d.count := by omega
    simp only [Create_position, hi', h1, h2, if_true]
    refine ⟨trivial, trivial, trivial, trivial, trivial, ?_⟩
    intro hs
    exact hs _
  · intro i hi
    have hi' : i < d.count - 2 := hi
    have h0 : i < d.count - 1 := by omega
    have h0' : i + 1 < d.count - 1 := by omega
    have h1 : i < d.count := by omega
    have h2 : i + 1 < d.count := by omega
    have h3' : i + 2 < d.count := by omega
    simp only [hi', h0, h0', h1, h2, h3', if_true]
    exact ⟨trivial, trivial, trivial, trivial, trivial, trivial, trivial, trivial, trivial⟩

/-- C11, amended, at a concrete definition: the bent rope `(0,0)`, `(4,3)`, `(8,0)`, whose
rest lengths are 5. -/
theorem Create_constraints_witness :
    3 ≤ (exampleDef (fun i => if i = 0 then ⟨0, 0⟩ else if i = 1 then ⟨4, 3⟩ else ⟨8, 0⟩)
      (fun _ => 1) ⟨0, -10⟩ (exampleTuning b2_pbdAngleBendingModel false)).count ∧
    ∃ r, Create M0 (exampleDef
        (fun i => if i = 0 then ⟨0, 0⟩ else if i = 1 then ⟨4, 3⟩ else ⟨8, 0⟩)
        (fun _ => 1) ⟨0, -10⟩ (exampleTuning b2_pbdAngleBendingModel false)) = some r ∧
      r.m_stretchCount = 2 ∧ r.m_bendCount = 1 ∧
      (r.m_stretchConstraints 0).L = Flt.fin 5 ∧ (r.m_stretchConstraints 1).L = Flt.fin 5 ∧
      (r.m_bendConstraints 0).L1 = Flt.fin 5 ∧ (r.m_bendConstraints 0).L2 = Flt.fin 5 := by
  refine ⟨le_refl 3, ?_⟩
  obtain ⟨r, hr, -, hs, hb, -, hS, hB⟩ := Create_constraints M0 (exampleDef
    (fun i => if i = 0 then ⟨0, 0⟩ else if i = 1 then ⟨4, 3⟩ else ⟨8, 0⟩)
    (fun _ => 1) ⟨0, -10⟩ (exampleTuning b2_pbdAngleBendingModel false)) (le_refl 3)
  have e0 := (hS 0 (by rw [hs]; decide)).2.2.2.2.1
  have e1 := (hS 1 (by rw [hs]; decide)).2.2.2.2.1
  have b0 := hB 0 (by rw [hb]; decide)
  refine ⟨r, hr, hs, hb, ?_, ?_, ?_, ?_⟩
  · rw [e0]; decide!
  · rw [e1]; decide!
  · rw [b0.2.2.2.2.2.2.1, e0]; decide!
  · rw [b0.2.2.2.2.2.2.2.1, e1]; decide!

/-- C11, counterexample: the rest length depends on the anchor.  For the vertices `(0,0)`,
`(1,0)`, `(2,0)`, one apart, `Create` with the anchor `(0, 0)` stores the rest length 1 in
both stretch constraints; with the anchor `(33554432, 0)` (which is `2 ^ 25`) the three
stored positions round to the same float and both rest lengths are 0, as are `L1` and `L2`
of the bend constraint.  All the values passed are floats. -/
theorem Create_rest_length_anchor :
    ((ropeOf (straightDef (fun _ => 1) (exampleTuning b2_pbdAngleBendingModel false))
        ).m_stretchConstraints 0).L = Flt.fin 1 ∧
    ((ropeOf (straightDef (fun _ => 1) (exampleTuning b2_pbdAngleBendingModel false))
        ).m_stretchConstraints 1).L = Flt.fin 1 ∧
    Flt.isFloat 33554432 ∧
    Create M0 { straightDef (fun _ => 1) (exampleTuning b2_pbdAngleBendingModel false) with
        position := ⟨33554432, 0⟩ } =
      some (ropeOf { straightDef (fun _ => 1) (exampleTuning b2_pbdAngleBendingModel false) with
        position := ⟨33554432, 0⟩ }) ∧
    (∀ i, i < 3 →
      (ropeOf { straightDef (fun _ => 1) (exampleTuning b2_pbdAngleBendingModel false) with
        position := ⟨33554432, 0⟩ }).m_ps i = ⟨Flt.fin 33554432, Flt.fin 0⟩) ∧
    ((ropeOf { straightDef (fun _ => 1) (exampleTuning b2_pbdAngleBendingModel false) with
        position := ⟨33554432, 0⟩ }).m_stretchConstraints 0).L = Flt.fin 0 ∧
    ((ropeOf { straightDef (fun _ => 1) (exampleTuning b2_pbdAngleBendingModel false) with
        position := ⟨33554432, 0⟩ }).m_stretchConstraints 1).L = Flt.fin 0 ∧
    ((ropeOf { straightDef (fun _ => 1) (exampleTuning b2_pbdAngleBendingModel false) with
        position := ⟨33554432, 0⟩ }).m_bendConstraints 0).L1 = Flt.fin 0 ∧
    ((ropeOf { straightDef (fun _ => 1) (exampleTuning b2_pbdAngleBendingModel false) with
        position := ⟨33554432, 0⟩ }).m_bendConstraints 0).L2 = Flt.fin 0 := by
  refine ⟨by decide!, by decide!, by decide!, ?_, ?_, by decide!, by decide!, by decide!,
    by decide!⟩
  · rw [Create_ropeOf]
    decide
  · intro i hi
    interval_cases i <;> decide!

/-! ## The integrator -/

/-- The state when the constraint loop of a step starts, for a model that is neither the
spring-angle model nor Soft-Angle with warm start: the velocities are the integrator's and
every position has advanced by `dt` times its velocity. -/
theorem Step_predict_plain (M : b2Math) (dt : ℚ) (a : b2Vec2 ℚ) (r : b2Rope)
    (hns : r.m_tuning.bendingModel ≠ b2_springAngleBendingModel)
    (hnw : ¬ (r.m_tuning.bendingModel = b2_softAngleBendingModel ∧
      r.m_tuning.warmStart = true)) :
    (Step_predict M dt a r).m_vs = (forLoop r.m_count (Step_integrate M dt a) r).m_vs ∧
    ∀ i, i < r.m_count →
      (Step_predict M dt a r).m_ps i =
        r.m_ps i + Flt.fin dt • (forLoop r.m_count (Step_integrate M dt a) r).m_vs i := by
  have hk1 := forLoop_keeps b2Rope.kept _ r.m_count r (Step_integrate_kept M dt a)
  have hp1 : (forLoop r.m_count (Step_integrate M dt a) r).m_ps = r.m_ps := by
    rw [forLoop_Step_integrate]
  unfold Step_predict
  lift_lets
  intro r1 r2 r3
  have h2 : r2 = r1 := by
    show (if r1.m_tuning.bendingModel = b2_springAngleBendingModel then ApplyBendForces M dt r1
        else r1) = r1
    rw [kept_tuning _ _ hk1, if_neg hns]
  have h3 : r3 = forLoop r1.m_bendCount clearLambda r1 := by
    show (if r2.m_tuning.bendingModel = b2_softAngleBendingModel ∧ r2.m_tuning.warmStart = true
      then forLoop r2.m_bendCount Step_warmStart r2
      else forLoop r2.m_bendCount clearLambda r2) = _
    rw [h2, kept_tuning _ _ hk1, if_neg hnw]
  have hc3 : r3.m_count = r.m_count := by
    rw [h3, forLoop_clearLambda]; exact kept_count r1 r hk1
  have hv3 : r3.m_vs = r1.m_vs := by rw [h3, forLoop_clearLambda]
  have hp3 : r3.m_ps = r.m_ps := by rw [h3, forLoop_clearLambda]; exact hp1
  rw [forLoop_Step_updatePosition, hc3]
  refine ⟨hv3, ?_⟩
  intro i hi
  show (if i < r.m_count then r3.m_ps i + Flt.fin dt • r3.m_vs i else r3.m_ps i) = _
  rw [if_pos hi, hp3, hv3]

/-- C16, amended: in any reachable state, for every `dt ≠ 0`, with no constraint iteration
and a bending model that is neither the spring-angle model nor Soft-Angle with warm start,
the `Step` completes, and afterwards each dynamic particle (inverse mass `> 0`) with prior
velocity `v` and position `p` has the position `p + dt * v'`, where `v'` is the integrated
velocity `(v + dt * gravity) * expf(-dt * damping)`, every operation rounded to a float; its
velocity is not `v'` but the quotient `(1 / dt) * (p + dt * v' - p)` that the end of the
step recomputes in floats. -/
theorem Step_integrates (M : b2Math) (d : b2RopeDef) (r : b2Rope) (hr : Reachable M d r)
    (dt : ℚ) (hdt : dt ≠ 0) (iterations : Int) (hit : iterations ≤ 0) (a : b2Vec2 ℚ)
    (hns : r.m_tuning.bendingModel ≠ b2_springAngleBendingModel)
    (hnw : ¬ (r.m_tuning.bendingModel = b2_softAngleBendingModel ∧
      r.m_tuning.warmStart = true)) :
    ∃ r', Step M dt iterations a r = some r' ∧
      ∀ i, i < r.m_count → (Flt.fin 0).blt (r.m_invMasses i) = true →
        r'.m_ps i = r.m_ps i + Flt.fin dt •
          (r.m_vs i + Flt.fin dt • r.m_gravity.toFlt).mulAssign
            (M.expf (-Flt.fin dt * Flt.fin r.m_tuning.damping)) ∧
        r'.m_vs i = (Flt.fin 1 / Flt.fin dt) •
          (r.m_ps i + Flt.fin dt •
            (r.m_vs i + Flt.fin dt • r.m_gravity.toFlt).mulAssign
              (M.expf (-Flt.fin dt * Flt.fin r.m_tuning.damping)) - r.m_ps i) := by
  obtain ⟨r', hr'⟩ := Step_runs_some M dt iterations a r (Or.inr (Or.inl hit))
  refine ⟨r', hr', ?_⟩
  obtain ⟨r5, h5, -, e⟩ := Step_eq_some M dt iterations a r r' hdt hr'
  have h0 : iterations.toNat = 0 := Int.toNat_eq_zero.mpr hit
  rw [h0] at h5
  simp only [Step_iterate, Option.some.injEq] at h5
  obtain ⟨hv, hp⟩ := Step_predict_plain M dt a r hns hnw
  intro i hi hdyn
  have hv1 : (forLoop r.m_count (Step_integrate M dt a) r).m_vs i =
      (r.m_vs i + Flt.fin dt • r.m_gravity.toFlt).mulAssign
        (M.expf (-Flt.fin dt * Flt.fin r.m_tuning.damping)) := by
    rw [forLoop_Step_integrate]
    show (if i < r.m_count then _ else _) = _
    rw [if_pos hi, if_pos hdyn]
  have hp5 : r5.m_ps i = r.m_ps i + Flt.fin dt •
      (r.m_vs i + Flt.fin dt • r.m_gravity.toFlt).mulAssign
        (M.expf (-Flt.fin dt * Flt.fin r.m_tuning.damping)) := by
    rw [← h5, hp i hi, hv1]
  have hp0 : r.m_p0s i = r.m_ps i := Reachable_p0s M d r hr i hi
  have hps : r'.m_ps i = r5.m_ps i := by rw [e]
  refine ⟨hps.trans hp5, ?_⟩
  rw [e]
  show (if i < r.m_count then (Flt.fin 1 / Flt.fin dt) • (r5.m_ps i - r.m_p0s i)
    else r5.m_vs i) = _
  rw [if_pos hi, hp5, hp0]

/-- C16, amended, at a concrete rope: the first particle of the rope at height 50, at rest
at `(0, 50)` under gravity `(0, -10)`, has after a step of length `8947849 / 536870912` (the
float nearest to `1 / 60`) without iterations the position `(0, 1638309 / 32768)` and the
velocity `(0, -11182079 / 67108864)`. -/
theorem Step_integrates_witness :
    (Reachable M0 highDef (ropeOf highDef) ∧ (8947849 / 536870912 : ℚ) ≠ 0 ∧ (0 : Int) ≤ 0 ∧
      (ropeOf highDef).m_tuning.bendingModel ≠ b2_springAngleBendingModel ∧
      0 < (ropeOf highDef).m_count ∧
      (Flt.fin 0).blt ((ropeOf highDef).m_invMasses 0) = true) ∧
    ∃ r', Step M0 (8947849 / 536870912) 0 ⟨0, 0⟩ (ropeOf highDef) = some r' ∧
      r'.m_ps 0 = ⟨Flt.fin 0, Flt.fin (1638309 / 32768)⟩ ∧
      r'.m_vs 0 = ⟨Flt.fin 0, Flt.fin (-11182079 / 67108864)⟩ := by
  have hreach : Reachable M0 highDef (ropeOf highDef) :=
    Reachable.create (Create_ropeOf _ (le_refl 3))
  refine ⟨⟨hreach, by norm_num, le_refl 0, by decide, by decide!, by decide!⟩, ?_⟩
  obtain ⟨r', h1, h2⟩ := Step_integrates M0 _ _ hreach (8947849 / 536870912) (by norm_num) 0
    (le_refl 0) ⟨0, 0⟩ (by decide) (by decide)
  obtain ⟨hp, hv⟩ := h2 0 (by decide!) (by decide!)
  exact ⟨r', h1, hp.trans (by decide!), hv.trans (by decide!)⟩

/-- C16, counterexample: the velocity after the step is not the integrated velocity.  The
rope at height 50 is at rest in the state that `Create` returns; for the first particle and
a step of length `8947849 / 536870912` (the float nearest to `1 / 60`) the integrated
velocity `(v + dt * gravity) * expf(-dt * damping)` is `(0, -11184811 / 67108864)`, about
`-0.16666667`, and the velocity that a `Step` without iterations leaves is
`(0, -11182079 / 67108864)`, about `-0.16662596`. -/
theorem Step_velocity_recomputed :
    Reachable M0 highDef (ropeOf highDef) ∧
    Flt.isFloat (8947849 / 536870912) ∧
    (Flt.fin 0).blt ((ropeOf highDef).m_invMasses 0) = true ∧
    ((ropeOf highDef).m_vs 0 + Flt.fin (8947849 / 536870912) •
        (ropeOf highDef).m_gravity.toFlt).mulAssign
      (M0.expf (-Flt.fin (8947849 / 536870912) * Flt.fin (ropeOf highDef).m_tuning.damping))
      = ⟨Flt.fin 0, Flt.fin (-11184811 / 67108864)⟩ ∧
    (Step M0 (8947849 / 536870912) 0 ⟨0, 0⟩ (ropeOf highDef)).map (fun r' => r'.m_vs 0)
      = some ⟨Flt.fin 0, Flt.fin (-11182079 / 67108864)⟩ := by
  refine ⟨Reachable.create (Create_ropeOf _ (le_refl 3)), by decide!, by decide!, by decide!,
    by decide!⟩

/-! ## The update of one stretch constraint -/

/-- The positions after the update of stretch constraint `j` of a rope laid out as `Create`
lays it out, when the sum of the cached inverse masses is not 0. -/
theorem SolveStretch_body_ps (M : b2Math) (j : Nat) (r : b2Rope)
    (hw : r.fixedPart.wellFormed) (hj : j < r.m_stretchCount)
    (hsum : (r.m_stretchConstraints j).invMass1 + (r.m_stretchConstraints j).invMass2
      ≠ Flt.fin 0) :
    SolveStretch_body M j r =
      { r with
        m_ps := Function.update (Function.update r.m_ps j
          (r.m_ps j -
            (Flt.fin r.m_tuning.stretchStiffness * ((r.m_stretchConstraints j).invMass1 /
                ((r.m_stretchConstraints j).invMass1 + (r.m_stretchConstraints j).invMass2)) *
              ((r.m_stretchConstraints j).L - (M.Normalize (r.m_ps (j + 1) - r.m_ps j)).1)) •
              (M.Normalize (r.m_ps (j + 1) - r.m_ps j)).2)) (j + 1)
          (r.m_ps (j + 1) +
            (Flt.fin r.m_tuning.stretchStiffness * ((r.m_stretchConstraints j).invMass2 /
                ((r.m_stretchConstraints j).invMass1 + (r.m_stretchConstraints j).invMass2)) *
              ((r.m_stretchConstraints j).L - (M.Normalize (r.m_ps (j + 1) - r.m_ps j)).1)) •
              (M.Normalize (r.m_ps (j + 1) - r.m_ps j)).2) } := by
  obtain ⟨e1, e2, -, -⟩ := wellFormed_stretch r hw j hj
  unfold SolveStretch_body
  simp only [e1, e2, if_neg hsum]

/-- The update of stretch constraint `j` does nothing when the sum of the cached inverse
masses is 0. -/
theorem SolveStretch_body_skip (M : b2Math) (j : Nat) (r : b2Rope)
    (hsum : (r.m_stretchConstraints j).invMass1 + (r.m_stretchConstraints j).invMass2
      = Flt.fin 0) :
    SolveStretch_body M j r = r := by
  unfold SolveStretch_body
  simp only [if_pos hsum]

/-- Zero divided by a float that is neither zero nor a NaN is zero. -/
theorem Flt_zero_div_of_ne (w : Flt) (h0 : w ≠ Flt.fin 0) (hn : w ≠ Flt.nan) :
    Flt.fin 0 / w = Flt.fin 0 := by
  cases w with
  | nan => exact absurd rfl hn
  | inf s => rfl
  | fin b =>
    apply Flt_zero_div
    intro hb
    exact h0 (by rw [hb])

/-- The share of a pinned endpoint, scaled by the stiffness and a finite residual, moves
nothing along a finite direction. -/
theorem Flt_pinned_share (k : ℚ) (w δ : Flt) (u : b2Vec2 Flt)
    (h0 : w ≠ Flt.fin 0) (hn : w ≠ Flt.nan) (hδ : δ.isFin = true) (hu : u.isFin) :
    (Flt.fin k * (Flt.fin 0 / w) * δ) • u = b2Vec2.zero := by
  obtain ⟨a, rfl⟩ := Flt_exists_of_isFin hδ
  obtain ⟨q, rfl⟩ := b2Vec2_exists_of_isFin hu
  rw [Flt_zero_div_of_ne w h0 hn, Flt_fin_mul_zero, Flt_zero_mul_fin]
  ext
  · show Flt.fin 0 * Flt.fin q.x = Flt.fin 0
    exact Flt_zero_mul_fin _
  · show Flt.fin 0 * Flt.fin q.y = Flt.fin 0
    exact Flt_zero_mul_fin _

/-- Subtracting the zero vector changes nothing. -/
theorem b2Vec2_sub_zero (p : b2Vec2 Flt) : p - b2Vec2.zero = p := by
  ext
  · exact Flt_sub_zero _
  · exact Flt_sub_zero _

/-- Adding the zero vector changes nothing. -/
theorem b2Vec2_add_zero (p : b2Vec2 Flt) : p + b2Vec2.zero = p := by
  ext
  · exact Flt_add_zero _
  · exact Flt_add_zero _

/-- C13, amended: for stretch constraint `j` of a rope laid out as `Create` lays it out,
with cached inverse masses `w1`, `w2`, rest length `L`, endpoints `p1`, `p2`, and with `Lcur`
and `d` the length and the direction that `Normalize` returns for `p2 - p1`: if
`w1 + w2 = 0` the update changes nothing; otherwise it writes
`p1 - (stiffness * (w1 / (w1 + w2)) * (L - Lcur)) d` and
`p2 + (stiffness * (w2 / (w1 + w2)) * (L - Lcur)) d`, every operation rounded to a float in
this order, and no other position, velocity or previous position.  When the residual
`L - Lcur` and the direction `d` are finite, an endpoint with inverse mass 0 does not move,
unless the other inverse mass is a NaN. -/
theorem SolveStretch_constraint (M : b2Math) (r : b2Rope) (hw : r.fixedPart.wellFormed)
    (j : Nat) (hj : j < r.m_stretchCount) :
    ((r.m_stretchConstraints j).i1 = j ∧ (r.m_stretchConstraints j).i2 = j + 1 ∧
      (r.m_stretchConstraints j).invMass1 = r.m_invMasses j ∧
      (r.m_stretchConstraints j).invMass2 = r.m_invMasses (j + 1)) ∧
    ((r.m_stretchConstraints j).invMass1 + (r.m_stretchConstraints j).invMass2 = Flt.fin 0 →
      SolveStretch_body M j r = r) ∧
    ((r.m_stretchConstraints j).invMass1 + (r.m_stretchConstraints j).invMass2 ≠ Flt.fin 0 →
      (SolveStretch_body M j r).m_ps j =
        r.m_ps j -
          (Flt.fin r.m_tuning.stretchStiffness * ((r.m_stretchConstraints j).invMass1 /
              ((r.m_stretchConstraints j).invMass1 + (r.m_stretchConstraints j).invMass2)) *
            ((r.m_stretchConstraints j).L - (M.Normalize (r.m_ps (j + 1) - r.m_ps j)).1)) •
            (M.Normalize (r.m_ps (j + 1) - r.m_ps j)).2 ∧
      (SolveStretch_body M j r).m_ps (j + 1) =
        r.m_ps (j + 1) +
          (Flt.fin r.m_tuning.stretchStiffness * ((r.m_stretchConstraints j).invMass2 /
              ((r.m_stretchConstraints j).invMass1 + (r.m_stretchConstraints j).invMass2)) *
            ((r.m_stretchConstraints j).L - (M.Normalize (r.m_ps (j + 1) - r.m_ps j)).1)) •
            (M.Normalize (r.m_ps (j + 1) - r.m_ps j)).2 ∧
      (∀ i, i ≠ j → i ≠ j + 1 → (SolveStretch_body M j r).m_ps i = r.m_ps i) ∧
      (SolveStretch_body M j r).m_vs = r.m_vs ∧ (SolveStretch_body M j r).m_p0s = r.m_p0s) ∧
    (((r.m_stretchConstraints j).L - (M.Normalize (r.m_ps (j + 1) - r.m_ps j)).1).isFin = true →
      (M.Normalize (r.m_ps (j + 1) - r.m_ps j)).2.isFin →
      ((r.m_stretchConstraints j).invMass1 = Flt.fin 0 →
        (r.m_stretchConstraints j).invMass2 ≠ Flt.nan →
        (SolveStretch_body M j r).m_ps j = r.m_ps j) ∧
      ((r.m_stretchConstraints j).invMass2 = Flt.fin 0 →
        (r.m_stretchConstraints j).invMass1 ≠ Flt.nan →
        (SolveStretch_body M j r).m_ps (j + 1) = r.m_ps (j + 1))) := by
  have hne : j ≠ j + 1 := Nat.ne_of_lt (Nat.lt_succ_self j)
  have hps : (r.m_stretchConstraints j).invMass1 + (r.m_stretchConstraints j).invMass2
        ≠ Flt.fin 0 →
      (SolveStretch_body M j r).m_ps j =
        r.m_ps j -
          (Flt.fin r.m_tuning.stretchStiffness * ((r.m_stretchConstraints j).invMass1 /
              ((r.m_stretchConstraints j).invMass1 + (r.m_stretchConstraints j).invMass2)) *
            ((r.m_stretchConstraints j).L - (M.Normalize (r.m_ps (j + 1) - r.m_ps j)).1)) •
            (M.Normalize (r.m_ps (j + 1) - r.m_ps j)).2 ∧
      (SolveStretch_body M j r).m_ps (j + 1) =
        r.m_ps (j + 1) +
          (Flt.fin r.m_tuning.stretchStiffness * ((r.m_stretchConstraints j).invMass2 /
              ((r.m_stretchConstraints j).invMass1 + (r.m_stretchConstraints j).invMass2)) *
            ((r.m_stretchConstraints j).L - (M.Normalize (r.m_ps (j + 1) - r.m_ps j)).1)) •
            (M.Normalize (r.m_ps (j + 1) - r.m_ps j)).2 := by
    intro hsum
    rw [SolveStretch_body_ps M j r hw hj hsum]
    constructor
    · show Function.update (Function.update r.m_ps j _) (j + 1) _ j = _
      rw [Function.update_noteq hne, Function.update_same]
    · show Function.update (Function.update r.m_ps j _) (j + 1) _ (j + 1) = _
      rw [Function.update_same]
  refine ⟨wellFormed_stretch r hw j hj, SolveStretch_body_skip M j r, ?_, ?_⟩
  · intro hsum
    refine ⟨(hps hsum).1, (hps hsum).2, ?_, ?_, ?_⟩
    · intro i h1 h2
      rw [SolveStretch_body_ps M j r hw hj hsum]
      show Function.update (Function.update r.m_ps j _) (j + 1) _ i = _
      rw [Function.update_noteq h2, Function.update_noteq h1]
    · rw [SolveStretch_body_ps M j r hw hj hsum]
    · rw [SolveStretch_body_ps M j r hw hj hsum]
  · intro hδ hu
    constructor
    · intro h1 h2
      by_cases hsum : (r.m_stretchConstraints j).invMass1 + (r.m_stretchConstraints j).invMass2
          = Flt.fin 0
      · rw [SolveStretch_body_skip M j r hsum]
      · rw [(hps hsum).1]
        rw [h1, Flt_zero_add] at hsum ⊢
        rw [Flt_pinned_share _ _ _ _ hsum h2 hδ hu, b2Vec2_sub_zero]
    · intro h1 h2
      by_cases hsum : (r.m_stretchConstraints j).invMass1 + (r.m_stretchConstraints j).invMass2
          = Flt.fin 0
      · rw [SolveStretch_body_skip M j r hsum]
      · rw [(hps hsum).2]
        rw [h1, Flt_add_zero] at hsum ⊢
        rw [Flt_pinned_share _ _ _ _ hsum h2 hδ hu, b2Vec2_add_zero]

/-- C13, amended, at a concrete rope: the second stretch constraint of the pulled rope, both
of whose endpoints have inverse mass 1, with rest length 1 and endpoints `(1, 0)` and
`(9646899 / 4194304, 0)`: the update puts them at `(9646899 / 8388608, 0)` and
`(4508877 / 2097152, 0)`. -/
theorem SolveStretch_constraint_witness :
    (pulledRope.fixedPart.wellFormed ∧ 1 < pulledRope.m_stretchCount ∧
      (pulledRope.m_stretchConstraints 1).invMass1 + (pulledRope.m_stretchConstraints 1).invMass2
        ≠ Flt.fin 0) ∧
    (SolveStretch_body M0 1 pulledRope).m_ps 1 = ⟨Flt.fin (9646899 / 8388608), Flt.fin 0⟩ ∧
    (SolveStretch_body M0 1 pulledRope).m_ps 2 = ⟨Flt.fin (4508877 / 2097152), Flt.fin 0⟩ :=
  have hw : pulledRope.fixedPart.wellFormed :=
    ropeOf_wellFormed (straightDef (fun _ => 1) (exampleTuning b2_pbdDistanceBendingModel false))
      (le_refl 3)
  have h := (SolveStretch_constraint M0 pulledRope hw 1 (by decide!)).2.2.1 (by decide!)
  ⟨⟨hw, by decide!, by decide!⟩, h.1.trans (by decide!), h.2.1.trans (by decide!)⟩

/-- C13, counterexample.  The displacements are not in the ratio of the inverse masses: in
the pulled rope the endpoints `(1, 0)` and `(9646899 / 4194304, 0)` of the second stretch
constraint both have inverse mass 1, and the update moves the first by `1258291 / 8388608`
and the second by `-629145 / 4194304`, which is not the opposite.  And an endpoint with
inverse mass 0 moves: in the far rope the first stretch constraint, of rest length 1, has
the pinned endpoint `(0, 0)` and the dynamic endpoint `(2 ^ 64, 0)`, whose squared distance
overflows, and the update leaves the pinned endpoint at a NaN. -/
theorem SolveStretch_displacements :
    ((pulledRope.m_stretchConstraints 1).invMass1 = Flt.fin 1 ∧
      (pulledRope.m_stretchConstraints 1).invMass2 = Flt.fin 1 ∧
      (pulledRope.m_stretchConstraints 1).L = Flt.fin 1 ∧
      pulledRope.m_ps 1 = ⟨Flt.fin 1, Flt.fin 0⟩ ∧
      pulledRope.m_ps 2 = ⟨Flt.fin (9646899 / 4194304), Flt.fin 0⟩ ∧
      Flt.isFloat (9646899 / 4194304) ∧
      (SolveStretch_body M0 1 pulledRope).m_ps 1
        = ⟨Flt.fin (1 + 1258291 / 8388608), Flt.fin 0⟩ ∧
      (SolveStretch_body M0 1 pulledRope).m_ps 2
        = ⟨Flt.fin (9646899 / 4194304 - 629145 / 4194304), Flt.fin 0⟩) ∧
    (((farRope (exampleTuning b2_pbdDistanceBendingModel false)).m_stretchConstraints 0).invMass1
        = Flt.fin 0 ∧
      ((farRope (exampleTuning b2_pbdDistanceBendingModel false)).m_stretchConstraints 0).invMass2
        = Flt.fin 1 ∧
      ((farRope (exampleTuning b2_pbdDistanceBendingModel false)).m_stretchConstraints 0).L
        = Flt.fin 1 ∧
      (farRope (exampleTuning b2_pbdDistanceBendingModel false)).m_ps 0
        = ⟨Flt.fin 0, Flt.fin 0⟩ ∧
      (farRope (exampleTuning b2_pbdDistanceBendingModel false)).m_ps 1
        = ⟨Flt.fin 18446744073709551616, Flt.fin 0⟩ ∧
      (SolveStretch_body M0 0 (farRope (exampleTuning b2_pbdDistanceBendingModel false))).m_ps 0
        = ⟨Flt.nan, Flt.nan⟩) := by
  refine ⟨⟨?_, ?_, ?_, ?_, ?_, ?_, ?_, ?_⟩, ?_, ?_, ?_, ?_, ?_, ?_⟩ <;> decide!

/-! ## A value, unless a NaN -/

theorem Flt_isOrNan_refl (x : Flt) : x.isOrNan x := Or.inr rfl

theorem b2Vec2_isOrNan_refl (v : b2Vec2 Flt) : v.isOrNan v :=
  ⟨Flt_isOrNan_refl _, Flt_isOrNan_refl _⟩

theorem b2Vec2_isOrNan_of_eq {u v : b2Vec2 Flt} (h : u = v) : u.isOrNan v := by
  rw [h]; exact b2Vec2_isOrNan_refl v

/-- The product of the squared edge lengths is 0 when one of them is 0 and the other is
finite. -/
theorem edge_product_zero {x y : Flt}
    (h : (x = Flt.fin 0 ∧ y.isFin = true) ∨ (y = Flt.fin 0 ∧ x.isFin = true)) :
    x * y = Flt.fin 0 := by
  rcases h with ⟨h, hy⟩ | ⟨h, hx⟩
  · obtain ⟨b, rfl⟩ := Flt_exists_of_isFin hy
    rw [h]; exact Flt_zero_mul_fin b
  · obtain ⟨a, rfl⟩ := Flt_exists_of_isFin hx
    rw [h]; exact Flt_fin_mul_zero a

/-- A float whose square is finite is finite. -/
theorem Flt_isFin_of_sq {x : Flt} (h : (x * x).isFin = true) : x.isFin = true := by
  cases x with
  | fin a => rfl
  | inf s => cases s <;> exact absurd h (by decide)
  | nan => exact absurd h (by decide)

/-- The terms of a finite sum are finite. -/
theorem Flt_isFin_of_add {x y : Flt} (h : (x + y).isFin = true) :
    x.isFin = true ∧ y.isFin = true := by
  cases x with
  | fin a =>
    cases y with
    | fin b => exact ⟨rfl, rfl⟩
    | inf t => exact absurd h (by simp [HAdd.hAdd, Add.add, Flt.add, Flt.isFin])
    | nan => exact absurd h (by simp [HAdd.hAdd, Add.add, Flt.add, Flt.isFin])
  | inf s =>
    cases y with
    | fin b => exact absurd h (by simp [HAdd.hAdd, Add.add, Flt.add, Flt.isFin])
    | inf t =>
      exfalso
      revert h
      cases s <;> cases t <;> decide
    | nan => exact absurd h (by simp [HAdd.hAdd, Add.add, Flt.add, Flt.isFin])
  | nan => exact absurd h (by simp [HAdd.hAdd, Add.add, Flt.add, Flt.isFin])

/-- A float is finite when its difference with a finite float is. -/
theorem Flt_isFin_of_sub_fin {x : Flt} {a : ℚ} (h : (x - Flt.fin a).isFin = true) :
    ∃ b, x = Flt.fin b := by
  cases x with
  | fin b => exact ⟨b, rfl⟩
  | inf t =>
    have e : Flt.inf t - Flt.fin a = Flt.inf t := rfl
    rw [e] at h
    cases h
  | nan =>
    have e : Flt.nan - Flt.fin a = Flt.nan := rfl
    rw [e] at h
    cases h

/-- A vector whose squared length is finite is finite. -/
theorem b2Vec2_isFin_of_LengthSquared {v : b2Vec2 Flt} (h : v.LengthSquared.isFin = true) :
    v.isFin := by
  obtain ⟨hx, hy⟩ := Flt_isFin_of_add h
  exact ⟨Flt_isFin_of_sq hx, Flt_isFin_of_sq hy⟩

/-- The difference of a finite vector and itself is the zero vector. -/
theorem b2Vec2_sub_self (q : b2Vec2 ℚ) : q.toFlt - q.toFlt = b2Vec2.zero := by
  ext
  · exact Flt_sub_self _
  · exact Flt_sub_self _

/-- The dot product of the zero vector and a finite vector is zero. -/
theorem b2Dot_zero_left (q : b2Vec2 ℚ) : b2Dot b2Vec2.zero q.toFlt = Flt.fin 0 := by
  show Flt.fin 0 * Flt.fin q.x + Flt.fin 0 * Flt.fin q.y = Flt.fin 0
  rw [Flt_zero_mul_fin, Flt_zero_mul_fin, Flt_add_zero]

/-- The PBD-Height update skips a triple with a zero edge: its offset from the chord is
zero. -/
theorem SolveBend_PBD_Height_body_zero_edge (M : b2Math) (j : Nat) (s : b2Rope)
    (hsqrt : M.b2Sqrt (Flt.fin 0) = Flt.fin 0)
    (h1 : (s.m_ps (s.m_bendConstraints j).i1).isFin)
    (h2 : (s.m_ps (s.m_bendConstraints j).i2).isFin)
    (hrr : (s.m_ps (s.m_bendConstraints j).i3 -
      s.m_ps (s.m_bendConstraints j).i1).LengthSquared.isFin = true)
    (h0 : s.m_ps (s.m_bendConstraints j).i1 = s.m_ps (s.m_bendConstraints j).i2 ∨
      s.m_ps (s.m_bendConstraints j).i2 = s.m_ps (s.m_bendConstraints j).i3) :
    SolveBend_PBD_Height_body M j s = s := by
  obtain ⟨q1, e1⟩ := b2Vec2_exists_of_isFin h1
  obtain ⟨q2, e2⟩ := b2Vec2_exists_of_isFin h2
  obtain ⟨qr, er⟩ := b2Vec2_exists_of_isFin (b2Vec2_isFin_of_LengthSquared hrr)
  obtain ⟨ρ, hρ⟩ := Flt_exists_of_isFin hrr
  unfold SolveBend_PBD_Height_body
  lift_lets
  intro stiffness c p1 p2 p3 ed1 ed2 r' rr
  intro alpha beta d dLen
  intros
  split_ifs with g1 g2 g3
  · rfl
  · rfl
  · rfl
  · exfalso
    apply g2
    have hrr' : rr = Flt.fin ρ := hρ
    have hρ0 : ρ ≠ 0 := by
      intro h
      apply g1
      rw [hrr', h]
    have hr' : r' = qr.toFlt := er
    have hp1 : p1 = q1.toFlt := e1
    have hp2 : p2 = q2.toFlt := e2
    have hd : d = b2Vec2.zero := by
      rcases h0 with h0 | h0
      · have h12 : p2 = p1 := h0.symm
        have hed1 : ed1 = b2Vec2.zero := by
          show p2 - p1 = _
          rw [h12, hp1]; exact b2Vec2_sub_self q1
        have hed2 : ed2 = r' := by
          show p3 - p2 = p3 - p1
          rw [h12]
        have ha : alpha = Flt.fin 1 := by
          show b2Dot ed2 r' / rr = _
          rw [hed2]
          show rr / rr = _
          rw [hrr']; exact Flt_div_self ρ hρ0
        have hb : beta = Flt.fin 0 := by
          show b2Dot ed1 r' / rr = _
          rw [hed1, hr', b2Dot_zero_left, hrr']; exact Flt_zero_div ρ hρ0
        obtain ⟨q3x, h3x⟩ : ∃ a, p3.x = Flt.fin a := by
          have hx : (p3.x - p1.x).isFin = true := (b2Vec2_isFin_of_LengthSquared hrr).1
          rw [hp1] at hx
          exact Flt_isFin_of_sub_fin hx
        obtain ⟨q3y, h3y⟩ : ∃ a, p3.y = Flt.fin a := by
          have hy : (p3.y - p1.y).isFin = true := (b2Vec2_isFin_of_LengthSquared hrr).2
          rw [hp1] at hy
          exact Flt_isFin_of_sub_fin hy
        show alpha • p1 + beta • p3 - p2 = _
        rw [ha, hb, h12, hp1]
        ext
        · show Flt.fin 1 * Flt.fin q1.x + Flt.fin 0 * p3.x - Flt.fin q1.x = Flt.fin 0
          rw [h3x, Flt_one_mul, Flt_zero_mul_fin, Flt_add_zero, Flt_sub_self]
        · show Flt.fin 1 * Flt.fin q1.y + Flt.fin 0 * p3.y - Flt.fin q1.y = Flt.fin 0
          rw [h3y, Flt_one_mul, Flt_zero_mul_fin, Flt_add_zero, Flt_sub_self]
      · have h32 : p3 = p2 := h0.symm
        have hed2 : ed2 = b2Vec2.zero := by
          show p3 - p2 = _
          rw [h32, hp2]; exact b2Vec2_sub_self q2
        have hed1 : ed1 = r' := by
          show p2 - p1 = p3 - p1
          rw [h32]
        have ha : alpha = Flt.fin 0 := by
          show b2Dot ed2 r' / rr = _
          rw [hed2, hr', b2Dot_zero_left, hrr']; exact Flt_zero_div ρ hρ0
        have hb : beta = Flt.fin 1 := by
          show b2Dot ed1 r' / rr = _
          rw [hed1]
          show rr / rr = _
          rw [hrr']; exact Flt_div_self ρ hρ0
        show alpha • p1 + beta • p3 - p2 = _
        rw [ha, hb, h32, hp1, hp2]
        ext
        · show Flt.fin 0 * Flt.fin q1.x + Flt.fin 1 * Flt.fin q2.x - Flt.fin q2.x = Flt.fin 0
          rw [Flt_one_mul, Flt_zero_mul_fin, Flt_zero_add, Flt_sub_self]
        · show Flt.fin 0 * Flt.fin q1.y + Flt.fin 1 * Flt.fin q2.y - Flt.fin q2.y = Flt.fin 0
          rw [Flt_one_mul, Flt_zero_mul_fin, Flt_zero_add, Flt_sub_self]
    show M.b2Sqrt d.LengthSquared = Flt.fin 0
    rw [hd]
    have : b2Vec2.zero.LengthSquared = Flt.fin 0 := by
      show Flt.fin 0 * Flt.fin 0 + Flt.fin 0 * Flt.fin 0 = Flt.fin 0
      rw [Flt_zero_mul_fin, Flt_add_zero]
    rw [this, hsqrt]

/-- C7, amended.  For the angle formulations (PBD-Angle, XPBD-Angle, Soft-Angle, the spring
pass `ApplyBendForces` and the warm start of `Step`) with `isometric` off: whenever the
squared length that the code computes for one edge of a bend triple is exactly zero and the
one it computes for the other edge is finite, processing that bend constraint changes
nothing, neither a position nor a velocity nor a multiplier.  For PBD-Height, with
`isometric` on or off and a square root that is 0 at 0: whenever the three positions are
finite, two adjacent particles of the triple coincide and the squared distance computed
for the outer pair is finite, processing the constraint changes nothing. -/
theorem bend_passes_skip_zero_edge (M : b2Math) (dt : ℚ) (j : Nat) (s : b2Rope) :
    (s.m_tuning.isometric = false →
      (((s.m_ps (s.m_bendConstraints j).i2 -
            s.m_ps (s.m_bendConstraints j).i1).LengthSquared = Flt.fin 0 ∧
          (s.m_ps (s.m_bendConstraints j).i3 -
            s.m_ps (s.m_bendConstraints j).i2).LengthSquared.isFin = true) ∨
        ((s.m_ps (s.m_bendConstraints j).i3 -
            s.m_ps (s.m_bendConstraints j).i2).LengthSquared = Flt.fin 0 ∧
          (s.m_ps (s.m_bendConstraints j).i2 -
            s.m_ps (s.m_bendConstraints j).i1).LengthSquared.isFin = true)) →
      SolveBend_PBD_Angle_body M j s = s ∧ SolveBend_XPBD_Angle_body M dt j s = s ∧
      SolveBend_Soft_Angle_body M dt j s = s ∧ ApplyBendForces_body M dt j s = s ∧
      Step_warmStart j s = s) ∧
    (M.b2Sqrt (Flt.fin 0) = Flt.fin 0 →
      (s.m_ps (s.m_bendConstraints j).i1).isFin →
      (s.m_ps (s.m_bendConstraints j).i2).isFin →
      (s.m_ps (s.m_bendConstraints j).i3).isFin →
      (s.m_ps (s.m_bendConstraints j).i3 -
        s.m_ps (s.m_bendConstraints j).i1).LengthSquared.isFin = true →
      (s.m_ps (s.m_bendConstraints j).i1 = s.m_ps (s.m_bendConstraints j).i2 ∨
        s.m_ps (s.m_bendConstraints j).i2 = s.m_ps (s.m_bendConstraints j).i3) →
      SolveBend_PBD_Height_body M j s = s) := by
  refine ⟨fun hiso h0 => ?_, fun hsqrt h1 h2 _ hrr h0 =>
    SolveBend_PBD_Height_body_zero_edge M j s hsqrt h1 h2 hrr h0⟩
  have hz := edge_product_zero h0
  refine ⟨?_, ?_, ?_, ?_, ?_⟩
  · unfold SolveBend_PBD_Angle_body
    lift_lets
    intro stiffness c p1 p2 p3 d1 d2 a b angle L1sqr L2sqr
    intros
    have g : L1sqr * L2sqr = Flt.fin 0 := by
      show (if s.m_tuning.isometric = true then _ else _) *
        (if s.m_tuning.isometric = true then _ else _) = Flt.fin 0
      simp only [hiso, Bool.false_eq_true, if_false]
      exact hz
    simp only [g, if_true]
  · unfold SolveBend_XPBD_Angle_body
    lift_lets
    intro omega c p1 p2 p3 dp1 dp2 dp3 d1 d2 L1sqr L2sqr
    intros
    have g : L1sqr * L2sqr = Flt.fin 0 := by
      show (if s.m_tuning.isometric = true then _ else _) *
        (if s.m_tuning.isometric = true then _ else _) = Flt.fin 0
      simp only [hiso, Bool.false_eq_true, if_false]
      exact hz
    simp only [g, if_true]
  · unfold SolveBend_Soft_Angle_body
    lift_lets
    intro inv_dt omega c p1 p2 p3 v1 v2 v3 d1 d2 L1sqr L2sqr
    intros
    have g : L1sqr * L2sqr = Flt.fin 0 := by
      show (if s.m_tuning.isometric = true then _ else _) *
        (if s.m_tuning.isometric = true then _ else _) = Flt.fin 0
      simp only [hiso, Bool.false_eq_true, if_false]
      exact hz
    simp only [g, if_true]
  · unfold ApplyBendForces_body
    lift_lets
    intro omega c p1 p2 p3 v1 v2 v3 d1 d2 L1sqr L2sqr
    intros
    have g : L1sqr * L2sqr = Flt.fin 0 := by
      show (if s.m_tuning.isometric = true then _ else _) *
        (if s.m_tuning.isometric = true then _ else _) = Flt.fin 0
      simp only [hiso, Bool.false_eq_true, if_false]
      exact hz
    simp only [g, if_true]
  · unfold Step_warmStart
    lift_lets
    intro c p1 p2 p3 d1 d2 L1sqr L2sqr
    intros
    have g : L1sqr * L2sqr = Flt.fin 0 := by
      show (if s.m_tuning.isometric = true then _ else _) *
        (if s.m_tuning.isometric = true then _ else _) = Flt.fin 0
      simp only [hiso, Bool.false_eq_true, if_false]
      exact hz
    simp only [g, if_true]

/-- C7, amended, at a concrete rope: in the rope whose first two particles coincide at
`(0, 0)` with the third at `(6, 8)`, the first squared edge is 0 and the second is 100; the
angle passes and the PBD-Height pass leave the rope as it is. -/
theorem bend_passes_skip_zero_edge_witness :
    ((zeroEdgeRope (exampleTuning b2_pbdAngleBendingModel false)).m_tuning.isometric = false ∧
      ((zeroEdgeRope (exampleTuning b2_pbdAngleBendingModel false)).m_ps 1 -
        (zeroEdgeRope (exampleTuning b2_pbdAngleBendingModel false)).m_ps 0).LengthSquared
          = Flt.fin 0 ∧
      ((zeroEdgeRope (exampleTuning b2_pbdAngleBendingModel false)).m_ps 2 -
        (zeroEdgeRope (exampleTuning b2_pbdAngleBendingModel false)).m_ps 1).LengthSquared
          = Flt.fin 100 ∧
      M0.b2Sqrt (Flt.fin 0) = Flt.fin 0 ∧
      (zeroEdgeRope (exampleTuning b2_pbdAngleBendingModel false)).m_ps 0
        = (zeroEdgeRope (exampleTuning b2_pbdAngleBendingModel false)).m_ps 1) ∧
    (SolveBend_PBD_Angle_body M0 0 (zeroEdgeRope (exampleTuning b2_pbdAngleBendingModel false))
        = zeroEdgeRope (exampleTuning b2_pbdAngleBendingModel false) ∧
      SolveBend_XPBD_Angle_body M0 1 0 (zeroEdgeRope (exampleTuning b2_pbdAngleBendingModel false))
        = zeroEdgeRope (exampleTuning b2_pbdAngleBendingModel false) ∧
      SolveBend_Soft_Angle_body M0 1 0 (zeroEdgeRope (exampleTuning b2_pbdAngleBendingModel false))
        = zeroEdgeRope (exampleTuning b2_pbdAngleBendingModel false) ∧
      ApplyBendForces_body M0 1 0 (zeroEdgeRope (exampleTuning b2_pbdAngleBendingModel false))
        = zeroEdgeRope (exampleTuning b2_pbdAngleBendingModel false) ∧
      Step_warmStart 0 (zeroEdgeRope (exampleTuning b2_pbdAngleBendingModel false))
        = zeroEdgeRope (exampleTuning b2_pbdAngleBendingModel false)) ∧
    SolveBend_PBD_Height_body M0 0 (zeroEdgeRope (exampleTuning b2_pbdAngleBendingModel false))
      = zeroEdgeRope (exampleTuning b2_pbdAngleBendingModel false) :=
  ⟨⟨by decide!, by decide!, by decide!, by decide!, by decide!⟩,
    (bend_passes_skip_zero_edge M0 1 0 _).1 (by decide!) (Or.inl ⟨by decide!, by decide!⟩),
    (bend_passes_skip_zero_edge M0 1 0 _).2 (by decide!) (by decide!) (by decide!) (by decide!)
      (by decide!) (Or.inl (by decide!))⟩

/-- C7, counterexample.  (1) PBD-Distance: in the rope whose first two particles coincide,
the first edge of the bend triple has squared length exactly zero, and yet the PBD-Distance
pass moves the third particle, from `(6, 8)` to `(3, 4)`.  (2) `isometric` on: in the rope
whose middle particle has slid onto the first one, the first squared edge is zero, and the
Soft-Angle pass with `isometric` on moves the middle particle from `(0, 0)` to
`(1/2, -1/2)`.  (3) Overflow: in the rope created at `(0,0)`, `(0,0)`, `(2 ^ 64, 0)` the
first squared edge is zero and the second one overflows; with `isometric` off the
PBD-Angle pass, the XPBD-Angle pass and the Soft-Angle pass, and the PBD-Height pass, leave
the first particle at a NaN, and the spring pass and the warm start leave its velocity at a
NaN. -/
theorem bend_passes_move_zero_edge :
    (((zeroEdgeRope (exampleTuning b2_pbdDistanceBendingModel false)).m_ps 1 -
        (zeroEdgeRope (exampleTuning b2_pbdDistanceBendingModel false)).m_ps 0).LengthSquared
          = Flt.fin 0 ∧
      (zeroEdgeRope (exampleTuning b2_pbdDistanceBendingModel false)).m_ps 2
        = ⟨Flt.fin 6, Flt.fin 8⟩ ∧
      (SolveBend_PBD_Distance_body M0 0
        (zeroEdgeRope (exampleTuning b2_pbdDistanceBendingModel false))).m_ps 2
        = ⟨Flt.fin 3, Flt.fin 4⟩) ∧
    (((slidRope b2_softAngleBendingModel true).m_ps 1 -
        (slidRope b2_softAngleBendingModel true).m_ps 0).LengthSquared = Flt.fin 0 ∧
      (slidRope b2_softAngleBendingModel true).m_ps 1 = ⟨Flt.fin 0, Flt.fin 0⟩ ∧
      (SolveBend_Soft_Angle_body M0 1 0 (slidRope b2_softAngleBendingModel true)).m_ps 1
        = ⟨Flt.fin (1 / 2), Flt.fin (-1 / 2)⟩) ∧
    (Flt.isFloat 18446744073709551616 ∧
      ((zeroFarRope (exampleTuning b2_xpbdAngleBendingModel false)).m_ps 1 -
        (zeroFarRope (exampleTuning b2_xpbdAngleBendingModel false)).m_ps 0).LengthSquared
          = Flt.fin 0 ∧
      ((zeroFarRope (exampleTuning b2_xpbdAngleBendingModel false)).m_ps 2 -
        (zeroFarRope (exampleTuning b2_xpbdAngleBendingModel false)).m_ps 1).LengthSquared
          = Flt.inf false ∧
      (zeroFarRope (exampleTuning b2_xpbdAngleBendingModel false)).m_ps 0
        = ⟨Flt.fin 0, Flt.fin 0⟩ ∧
      (SolveBend_XPBD_Angle_body M0 1 0
        (zeroFarRope (exampleTuning b2_xpbdAngleBendingModel false))).m_ps 0
        = ⟨Flt.nan, Flt.nan⟩ ∧
      (SolveBend_Soft_Angle_body M0 1 0
        (zeroFarRope (exampleTuning b2_softAngleBendingModel false))).m_ps 0
        = ⟨Flt.nan, Flt.nan⟩ ∧
      (SolveBend_PBD_Height_body M0 0
        (zeroFarRope (exampleTuning b2_pbdHeightBendingModel false))).m_ps 0
        = ⟨Flt.nan, Flt.nan⟩ ∧
      (SolveBend_PBD_Angle_body M0 0
        (zeroFarRope (exampleTuning b2_pbdAngleBendingModel false))).m_ps 0
        = ⟨Flt.nan, Flt.nan⟩ ∧
      (zeroFarRope (exampleTuning b2_springAngleBendingModel false)).m_vs 0
        = ⟨Flt.fin 0, Flt.fin 0⟩ ∧
      (ApplyBendForces_body M0 1 0
        (zeroFarRope (exampleTuning b2_springAngleBendingModel false))).m_vs 0
        = ⟨Flt.nan, Flt.nan⟩ ∧
      (Step_warmStart 0
        (zeroFarRope { exampleTuning b2_softAngleBendingModel false with warmStart := true })
        ).m_vs 0 = ⟨Flt.nan, Flt.nan⟩) := by
  refine ⟨⟨?_, ?_, ?_⟩, ⟨?_, ?_, ?_⟩, ⟨?_, ?_, ?_, ?_, ?_, ?_, ?_, ?_, ?_, ?_, ?_⟩⟩ <;> decide!

/-! ## Bend passes without stiffness -/

/-- A NaN coordinate stays a NaN when something is added to the vector. -/
theorem b2Vec2_hasNan_add {p : b2Vec2 Flt} (h : p.hasNan) (q : b2Vec2 Flt) : (p + q).hasNan := by
  rcases h with h | h
  · exact Or.inl (show p.x + q.x = Flt.nan by rw [h]; rfl)
  · exact Or.inr (show p.y + q.y = Flt.nan by rw [h]; rfl)

theorem update3_hasNan (ps : Nat → b2Vec2 Flt) (i1 i2 i3 i : Nat) (q1 q2 q3 : b2Vec2 Flt)
    (h1 : (ps i1).hasNan → q1.hasNan) (h2 : (ps i2).hasNan → q2.hasNan)
    (h3 : (ps i3).hasNan → q3.hasNan) (h : (ps i).hasNan) :
    (Function.update (Function.update (Function.update ps i1 q1) i2 q2) i3 q3 i).hasNan := by
  by_cases e3 : i = i3
  · rw [e3, Function.update_same]; exact h3 (e3 ▸ h)
  · rw [Function.update_noteq e3]
    by_cases e2 : i = i2
    · rw [e2, Function.update_same]; exact h2 (e2 ▸ h)
    · rw [Function.update_noteq e2]
      by_cases e1 : i = i1
      · rw [e1, Function.update_same]; exact h1 (e1 ▸ h)
      · rw [Function.update_noteq e1]; exact h

/-- The PBD-Height update leaves a NaN coordinate a NaN. -/
theorem SolveBend_PBD_Height_body_hasNan (M : b2Math) (j : Nat) (t : b2Rope) (i : Nat)
    (h : (t.m_ps i).hasNan) : ((SolveBend_PBD_Height_body M j t).m_ps i).hasNan := by
  unfold SolveBend_PBD_Height_body
  simp only []
  split_ifs <;> first
    | exact h
    | exact update3_hasNan _ _ _ _ _ _ _ _ (fun h => b2Vec2_hasNan_add h _)
        (fun h => b2Vec2_hasNan_add h _) (fun h => b2Vec2_hasNan_add h _) h

